import Mathlib

/-!
Shallow embedding of the KAPLAY LDTK plugin (`LDTKProject`, `LDTKAssetStorage`,
`LDTKEntity`, `LDTKIntGridTile` and the spawn walk) and proofs about it.

Modelling conventions:
* JS numbers holding pixel coordinates / sizes / depths are `Int`
  (the schema only produces integers there); values that the source divides
  (atlas sizes, tile sizes, quad components, tile source coordinates divided
  by grid size, opacity, background scale) are `ℚ`.
* JS objects used as string-keyed records (the asset table, the entity field
  dictionary, the registration table, the deferred post-init table) are
  insertion-ordered association lists; property writes keep the position of
  an existing key and append a fresh key, exactly as JS object semantics.
* Host callbacks are opaque: dispatching one is recorded as an `Event`.
  The entity registration table stores, per name, whether a post-init
  callback was supplied; the IntGrid handler list is kept as its length and
  events record the handler index.
* `fetch` is an oracle `String → Option Level`; `none` is a failed fetch.
* The thrown `TypeError` of `spawn` (reading a property of `undefined`)
  is modelled with `Except String`.
* `Array.prototype.sort` with comparator `a.worldDepth - b.worldDepth` is
  the unique stable ascending sort, embedded as `List.insertionSort`.
-/

namespace LDTK

/-- 2D integer vector (pixel coordinates). -/
structure Vec2 where
  x : Int
  y : Int
deriving DecidableEq, Repr

/-- Componentwise addition, `Vec2.add` from KAPLAY. -/
def Vec2.add (a b : Vec2) : Vec2 := ⟨a.x + b.x, a.y + b.y⟩

/-- 2D rational vector (atlas metadata and tile coordinates, which JS divides). -/
structure Vec2Q where
  x : ℚ
  y : ℚ
deriving DecidableEq, Repr

/-- A normalized texture rectangle, KAPLAY's `Quad`. -/
structure Quad where
  x : ℚ
  y : ℚ
  w : ℚ
  h : ℚ
deriving DecidableEq, Repr

/-- One raw LDTK field instance: `__identifier`, `__type`, `__value`.
Field values are kept abstract as `Int`; the claims only compare them. -/
structure FieldInstance where
  identifier : String
  type : String
  value : Int
deriving DecidableEq, Repr

/-- One raw LDTK entity instance. -/
structure EntityInstance where
  identifier : String
  iid : String
  px : Vec2
  width : Option Int
  height : Option Int
  fieldInstances : List FieldInstance
deriving DecidableEq, Repr

/-- One raw tile instance: pixel position, atlas source, flip bits, opacity. -/
structure TileInstance where
  px : Vec2
  src : Vec2
  f : Nat
  a : ℚ
deriving DecidableEq, Repr

/-- The four LDTK layer types. -/
inductive LayerType where
  | Entities
  | IntGrid
  | Tiles
  | AutoLayer
deriving DecidableEq, Repr

/-- One raw LDTK layer instance. -/
structure LayerInstance where
  identifier : String
  type : LayerType
  tilesetRelPath : Option String
  gridSize : Int
  cWid : Int
  intGridCsv : List Int
  entityInstances : List EntityInstance
  gridTiles : List TileInstance
  autoLayerTiles : List TileInstance
deriving DecidableEq, Repr

/-- Background placement data, LDTK `__bgPos`. -/
structure BgPos where
  topLeftPx : Vec2
  scale : Vec2Q
deriving DecidableEq, Repr

/-- One raw LDTK level. -/
structure Level where
  iid : String
  pxWid : Int
  pxHei : Int
  worldX : Int
  worldY : Int
  worldDepth : Int
  bgColor : String
  bgRelPath : Option String
  bgPos : Option BgPos
  layerInstances : Option (List LayerInstance)
  fieldInstances : List FieldInstance
  externalRelPath : String
deriving DecidableEq, Repr

/-- The four LDTK world layouts. -/
inductive WorldLayout where
  | Free
  | GridVania
  | LinearHorizontal
  | LinearVertical
deriving DecidableEq, Repr

/-- One raw LDTK world. -/
structure World where
  iid : String
  identifier : String
  worldGridWidth : Int
  worldGridHeight : Int
  worldLayout : WorldLayout
  levels : List Level
  defaultLevelWidth : Int
  defaultLevelHeight : Int
deriving DecidableEq, Repr

/-- One tileset definition from `defs.tilesets`. -/
structure TilesetDef where
  relPath : Option String
  pxWid : Int
  pxHei : Int
  cWid : Int
  cHei : Int
  spacing : Int
  padding : Int
  uid : Int
deriving DecidableEq, Repr

/-- The top-level LDTK JSON document. -/
structure LDTKJSONRoot where
  worlds : List World
  levels : List Level
  tilesets : List TilesetDef
  worldLayout : WorldLayout
  worldGridWidth : Option Int
  worldGridHeight : Option Int
  defaultLevelWidth : Option Int
  defaultLevelHeight : Option Int
  externalLevels : Bool
deriving DecidableEq, Repr

/-- A registered tileset asset; `dataPath` stands in for the opaque sprite
handle (the URL the host was asked to load). -/
structure LDTKAsset where
  name : String
  size : Vec2Q
  tileSize : Vec2Q
  spacing : ℚ
  padding : ℚ
  uid : Int
  dataPath : String
deriving DecidableEq, Repr

/-- The asset table of `LDTKAssetStorage`: a JS object keyed by name,
kept as an insertion-ordered association list. -/
abbrev AssetStore := List (String × LDTKAsset)

/-- `LDTKAssetStorage.addAsset`: no-op if the name is already present. -/
def addAsset (st : AssetStore) (name : String) (a : LDTKAsset) : AssetStore :=
  if (st.find? (fun e => e.1 == name)).isSome then st else st ++ [(name, a)]

/-- Property read `this.assets[name]`. -/
def getAsset (st : AssetStore) (name : String) : Option LDTKAsset :=
  (st.find? (fun e => e.1 == name)).map Prod.snd

/-- `LDTKAssetStorage.getAssetByUid`: linear search over the stored values. -/
def getAssetByUid (st : AssetStore) (uid : Int) : Option LDTKAsset :=
  (st.find? (fun e => e.2.uid == uid)).map Prod.snd

/-- `LDTKAssetStorage.getQuad`: normalized quad for a tile column/row
coordinate, or `none` (with a warning) when the asset is unknown. -/
def getQuad (st : AssetStore) (spriteName : String) (pos : Vec2Q) : Option Quad :=
  match getAsset st spriteName with
  | none => none
  | some asset =>
      some { x := (pos.x * asset.tileSize.x + asset.spacing * pos.x + asset.padding) / asset.size.x
           , y := (pos.y * asset.tileSize.y + asset.spacing * pos.y + asset.padding) / asset.size.y
           , w := asset.tileSize.x / asset.size.x
           , h := asset.tileSize.y / asset.size.y }

/-- `LDTKAssetStorage.getSprite`: the sprite handle, or `none` with a warning. -/
def getSprite (st : AssetStore) (name : String) : Option String :=
  (getAsset st name).map LDTKAsset.dataPath

end LDTK

namespace LDTK

/-- JS record write `acc[k] = v` on a string-keyed object: overwrite keeps the
key position, a fresh key is appended. -/
def recordSet {α : Type} (m : List (String × α)) (k : String) (v : α) : List (String × α) :=
  if (m.find? (fun e => e.1 == k)).isSome
  then m.map (fun e => if e.1 == k then (k, v) else e)
  else m ++ [(k, v)]

/-- JS record read `m[k]`. -/
def recordGet {α : Type} (m : List (String × α)) (k : String) : Option α :=
  (m.find? (fun e => e.1 == k)).map Prod.snd

/-- The `fields` dictionary built by
`fields.reduce((acc, field) => (rest of acc plus the pair), empty)`. -/
def buildFields (fields : List FieldInstance) : List (String × Int) :=
  fields.foldl (fun acc f => recordSet acc f.identifier f.value) []

/-- Value of the last occurrence of a field name in a raw field list. -/
def lastField (l : List FieldInstance) (k : String) : Option Int :=
  (l.reverse.find? (fun f => f.identifier == k)).map FieldInstance.value

/-- The `LDTKEntity` value object handed to init / post-init callbacks.
The scene-object and asset-registry references are host capability handles
and are omitted; `persistedData` starts empty and is only mutated by host
callbacks, which are opaque here. -/
structure LDTKEntityV where
  name : String
  pos : Vec2
  size : Vec2
  fieldsRaw : List FieldInstance
  fields : List (String × Int)
  id : String
deriving DecidableEq, Repr

/-- The `LDTKIntGridTile` value object handed to IntGrid handlers. -/
structure LDTKIntGridTileV where
  id : String
  pos : Vec2
  size : Vec2
  value : Int
deriving DecidableEq, Repr

/-- One observable effect of the loader/spawner: a host callback dispatch,
a registered draw callback, or a message sent to the logging collaborator. -/
inductive Event where
  | errorLog (msg : String)
  | drawRect (pos : Vec2) (width : Int) (height : Int) (color : String)
  | drawBg (path : String) (pos : Vec2) (scale : Vec2Q)
  | initEntity (e : LDTKEntityV)
  | intGridTile (handler : Nat) (t : LDTKIntGridTileV)
  | tileDraw (path : String) (pos : Vec2) (quad : Option Quad)
      (flipX : Bool) (flipY : Bool) (opacity : ℚ) (width : Int) (height : Int)
  | postInit (e : LDTKEntityV)
deriving DecidableEq, Repr

/-- Erase the field data of an entity value, keeping name / position /
size / instance id. -/
def stripEntityV (e : LDTKEntityV) : LDTKEntityV :=
  { e with fieldsRaw := [], fields := [] }

/-- Erase field data from the entity-carrying events; positions, sizes,
quads, flips and all other payloads are untouched. -/
def stripFields : Event → Event
  | .initEntity e => .initEntity (stripEntityV e)
  | .postInit e => .postInit (stripEntityV e)
  | e => e

/-- Whether an event is a post-init dispatch. -/
def Event.isPost : Event → Bool
  | .postInit _ => true
  | _ => false

/-- Instance id of a post-init dispatch event. -/
def Event.postIid : Event → Option String
  | .postInit e => some e.id
  | _ => none

/-- Whether an event is an IntGrid handler dispatch. -/
def Event.isIntGrid : Event → Bool
  | .intGridTile _ _ => true
  | _ => false

/-- Position of a level background rectangle draw callback. -/
def Event.rectPos : Event → Option Vec2
  | .drawRect pos _ _ _ => some pos
  | _ => none

/-- Instance id of an init dispatch whose entity name is registered with a
post-init callback, for a given registration table. -/
def postRegIid (regs : List (String × Bool)) : Event → Option String
  | .initEntity e => if recordGet regs e.name = some true then some e.id else none
  | _ => none

/-- The `LDTKProject` instance state: loaded document, registration tables,
deferred post-init table, configuration. The write-only fields
`this.worlds` / `this.world` / `this.layout` (reassigned by every `spawn`
before being read) and the host scene-object handle are omitted. -/
structure ProjectState where
  rootUrl : String := "./"
  data : Option LDTKJSONRoot := none
  entities : List (String × Bool) := []
  numIntGridHandlers : Nat := 0
  postProcessEntities : List (String × LDTKEntityV) := []
  worldIndex : Nat := 0
  levelOffset : Int := 48
  rootPos : Vec2 := ⟨0, 0⟩
  assets : AssetStore := []
deriving DecidableEq, Repr

/-- Constructor options (`LDTKOptions`). -/
structure LDTKOptions where
  rootUrl : Option String := none
  levelFolder : Option String := none
  pos : Option Vec2 := none
  world : Option Nat := none
  levelOffset : Option Int := none
deriving DecidableEq, Repr

/-- The `LDTKProject` constructor. Each option is applied only when truthy
(`if (this.options.x)`), so a numeric option explicitly set to `0` is
ignored and the default stays. -/
def mkLDTKProject (options : Option LDTKOptions) : ProjectState :=
  let opts := options.getD {}
  { rootPos := opts.pos.getD ⟨0, 0⟩
  , worldIndex := match opts.world with
      | some w => if w ≠ 0 then w else 0
      | none => 0
  , levelOffset := match opts.levelOffset with
      | some o => if o ≠ 0 then o else 48
      | none => 48 }

/-- `registerEntity`: later registration for the same name overwrites.
Only the presence of a post-init callback is recorded. -/
def registerEntity (s : ProjectState) (name : String) (hasPostInit : Bool) : ProjectState :=
  { s with entities := recordSet s.entities name hasPostInit }

/-- `registerIntGrid`: appends a handler; only the count is recorded. -/
def registerIntGrid (s : ProjectState) : ProjectState :=
  { s with numIntGridHandlers := s.numIntGridHandlers + 1 }

/-- `loadTileSets`: register every tileset that has a `relPath`, deriving
tile size by dividing pixel size by column / row count. -/
def loadTileSets (s : ProjectState) : ProjectState :=
  let defs := match s.data with
    | some d => d.tilesets
    | none => []
  { s with assets := defs.foldl (fun st ts =>
      match ts.relPath with
      | some rp => addAsset st rp
          { name := rp
          , size := ⟨(ts.pxWid : ℚ), (ts.pxHei : ℚ)⟩
          , tileSize := ⟨(ts.pxWid : ℚ) / (ts.cWid : ℚ), (ts.pxHei : ℚ) / (ts.cHei : ℚ)⟩
          , spacing := (ts.spacing : ℚ)
          , padding := (ts.padding : ℚ)
          , uid := ts.uid
          , dataPath := s.rootUrl ++ rp }
      | none => st) s.assets }

/-- The sequential external-level fetch loop: stop at the first failure. -/
def fetchLevels (fetch : String → Option Level) : List String → Except Unit (List Level)
  | [] => .ok []
  | p :: ps =>
      match fetch p with
      | none => .error ()
      | some l =>
          match fetchLevels fetch ps with
          | .error e => .error e
          | .ok ls => .ok (l :: ls)

/-- `loadFromObject`. Note the order of operations from the source:
`this.data` is assigned first; when levels are external each is fetched and
the first failure reports an error and returns, leaving `this.data` set to
the document with its stub levels and registering no tilesets. -/
def loadFromObject (s : ProjectState) (doc : LDTKJSONRoot)
    (fetch : String → Option Level) : ProjectState × List Event :=
  let s1 := { s with data := some doc }
  if doc.externalLevels then
    match fetchLevels (fun p => fetch (s.rootUrl ++ p))
        (doc.levels.map Level.externalRelPath) with
    | .error _ => (s1, [Event.errorLog ("Failed to load LDTK project: external level fetch failed")])
    | .ok levels =>
        (loadTileSets { s1 with data := some { doc with levels := levels } }, [])
  else
    (loadTileSets s1, [])

/-- Ordering used by `levels.sort((a, b) => a.worldDepth - b.worldDepth)`. -/
def levelLE (a b : Level) : Prop := a.worldDepth ≤ b.worldDepth

instance : DecidableRel levelLE := fun a b =>
  inferInstanceAs (Decidable (a.worldDepth ≤ b.worldDepth))

instance : IsTotal Level levelLE := ⟨fun a b => Int.le_total a.worldDepth b.worldDepth⟩

instance : IsTrans Level levelLE := ⟨fun _ _ _ h1 h2 => le_trans h1 h2⟩

/-- The stable ascending sort of the level list. JS `Array.prototype.sort`
is stable, and the unique stable sort is the insertion sort. -/
def sortLevels (lvs : List Level) : List Level := List.insertionSort levelLE lvs

/-- The world synthesized by `spawn` when the document declares no explicit
worlds. `crypto.randomUUID()` is opaque; the iid is never read. -/
def synthWorld (d : LDTKJSONRoot) : World :=
  { iid := "synthesized"
  , identifier := "World"
  , worldGridWidth := d.worldGridWidth.getD 256
  , worldGridHeight := d.worldGridHeight.getD 256
  , worldLayout := d.worldLayout
  , levels := d.levels
  , defaultLevelWidth := d.defaultLevelWidth.getD 256
  , defaultLevelHeight := d.defaultLevelHeight.getD 256 }

/-- The world list `spawn` selects from. -/
def worldsOf (d : LDTKJSONRoot) : List World :=
  if d.worlds.length = 0 then [synthWorld d] else d.worlds

/-- The level list held by the document for the world at `idx` (the list
`spawn` reads, and the one it writes back after its in-place mutations). -/
def activeLevels (d : LDTKJSONRoot) (idx : Nat) : List Level :=
  (((worldsOf d)[idx]?).map World.levels).getD []

/-- Accumulation loop of the linear-horizontal layout: sum pixel width plus
offset over levels strictly before the first iid match. -/
def linearSpanX (offset : Int) (target : String) : List Level → Int
  | [] => 0
  | l :: rest =>
      if l.iid = target then 0 else l.pxWid + offset + linearSpanX offset target rest

/-- Accumulation loop of the linear-vertical layout. -/
def linearSpanY (offset : Int) (target : String) : List Level → Int
  | [] => 0
  | l :: rest =>
      if l.iid = target then 0 else l.pxHei + offset + linearSpanY offset target rest

/-- `levelPos` as computed at the top of the per-level loop of `spawn`. -/
def levelPosFor (layout : WorldLayout) (offset : Int) (levels : List Level)
    (level : Level) : Vec2 :=
  match layout with
  | .LinearHorizontal => ⟨linearSpanX offset level.iid levels, 0⟩
  | .LinearVertical => ⟨0, linearSpanY offset level.iid levels⟩
  | _ => ⟨level.worldX, level.worldY⟩

/-- The read-only data a spawn pass threads through the walk. -/
structure SpawnCtx where
  regs : List (String × Bool)
  numHandlers : Nat
  assets : AssetStore
  rootUrl : String
  layout : WorldLayout
  offset : Int
deriving Repr

/-- Body of the per-entity loop of `loadLayerEntities`: push the instance
fields onto the level's shared field list, build the entity value, dispatch
the registered init callback (or report an error), and defer the post-init
callback keyed by instance id. -/
def processEntity (regs : List (String × Bool)) (levelPos : Vec2)
    (fields : List FieldInstance) (pp : List (String × LDTKEntityV))
    (ent : EntityInstance) :
    List FieldInstance × List (String × LDTKEntityV) × List Event :=
  let fields1 := fields ++ ent.fieldInstances
  let entity : LDTKEntityV :=
    { name := ent.identifier
    , pos := Vec2.add ent.px levelPos
    , size := ⟨ent.width.getD 0, ent.height.getD 0⟩
    , fieldsRaw := fields1
    , fields := buildFields fields1
    , id := ent.iid }
  match recordGet regs entity.name with
  | some hasPost =>
      (fields1, (if hasPost then recordSet pp entity.id entity else pp),
       [Event.initEntity entity])
  | none =>
      (fields1, pp, [Event.errorLog ("No entity registered for " ++ entity.name)])

/-- `loadLayerEntities`, threading the (mutated) shared field list and the
deferred post-init table. -/
def loadLayerEntities (regs : List (String × Bool)) (levelPos : Vec2) :
    List EntityInstance → List FieldInstance → List (String × LDTKEntityV) →
    List FieldInstance × List (String × LDTKEntityV) × List Event
  | [], fields, pp => (fields, pp, [])
  | ent :: rest, fields, pp =>
      let r1 := processEntity regs levelPos fields pp ent
      let r2 := loadLayerEntities regs levelPos rest r1.1 r1.2.1
      (r2.1, r2.2.1, r1.2.2 ++ r2.2.2)

/-- World position of the IntGrid cell at flat index `p`: the source indexes
row-major through `% posMax` and a floored division. Division and modulo are
the euclidean ones, which agree with the JS operators on the nonnegative
operands the schema produces. -/
def intGridCellPos (gridSize cWid : Int) (levelPos : Vec2) (p : Nat) : Vec2 :=
  let posMax := cWid * gridSize
  Vec2.add ⟨Int.emod ((p : Int) * gridSize) posMax,
            Int.ediv ((p : Int) * gridSize) posMax * gridSize⟩ levelPos

/-- Loop of `loadIntGridTiles`: for every cell (of any value, in flat order)
dispatch every registered handler with a fresh IntGrid tile value. -/
def intGridEvents (n : Nat) (layer : LayerInstance) (levelPos : Vec2) :
    List Int → Nat → List Event
  | [], _ => []
  | v :: rest, p =>
      (List.range n).map (fun h => Event.intGridTile h
        { id := layer.identifier
        , pos := intGridCellPos layer.gridSize layer.cWid levelPos p
        , size := ⟨layer.gridSize, layer.gridSize⟩
        , value := v })
      ++ intGridEvents n layer levelPos rest (p + 1)

/-- `loadIntGridTiles`. -/
def loadIntGridTiles (n : Nat) (layer : LayerInstance) (levelPos : Vec2) : List Event :=
  intGridEvents n layer levelPos layer.intGridCsv 0

/-- Per-tile loop of `loadTiles`: decode flip bits, re-check the sprite
handle (aborting the rest of the layer when missing), and register the draw
callback with the quad from the atlas source divided by grid size. -/
def tileEvents (assets : AssetStore) (path : String) (layer : LayerInstance)
    (levelPos : Vec2) : List TileInstance → List Event
  | [] => []
  | tile :: rest =>
      match getSprite assets path with
      | none => [Event.errorLog ("Sprite for tileset " ++ path ++ " not found for layer " ++ layer.identifier)]
      | some _ =>
          Event.tileDraw path (Vec2.add tile.px levelPos)
            (getQuad assets path
              ⟨(tile.src.x : ℚ) / (layer.gridSize : ℚ), (tile.src.y : ℚ) / (layer.gridSize : ℚ)⟩)
            (tile.f &&& 1 != 0) (tile.f &&& 2 != 0) tile.a layer.gridSize layer.gridSize
          :: tileEvents assets path layer levelPos rest

/-- `loadTiles` (used for both Tiles and AutoLayer layers). A missing
tileset registration aborts the layer with a reported error. A layer whose
`__tilesetRelPath` is absent fails the same existence check (the JS lookup
with an undefined key misses). -/
def loadTiles (assets : AssetStore) (layer : LayerInstance) (levelPos : Vec2) : List Event :=
  let tiles := if layer.type = LayerType.Tiles then layer.gridTiles
    else if layer.type = LayerType.AutoLayer then layer.autoLayerTiles
    else []
  match layer.tilesetRelPath with
  | none => [Event.errorLog ("Tileset undefined not found for layer " ++ layer.identifier)]
  | some path =>
      if (getAsset assets path).isSome then tileEvents assets path layer levelPos tiles
      else [Event.errorLog ("Tileset " ++ path ++ " not found for layer " ++ layer.identifier)]

/-- Dispatch on the layer type, as in the layer loop of `spawn`. -/
def processLayer (ctx : SpawnCtx) (levelPos : Vec2) (layer : LayerInstance)
    (fields : List FieldInstance) (pp : List (String × LDTKEntityV)) :
    List FieldInstance × List (String × LDTKEntityV) × List Event :=
  match layer.type with
  | .Entities => loadLayerEntities ctx.regs levelPos layer.entityInstances fields pp
  | .IntGrid => (fields, pp, loadIntGridTiles ctx.numHandlers layer levelPos)
  | .Tiles => (fields, pp, loadTiles ctx.assets layer levelPos)
  | .AutoLayer => (fields, pp, loadTiles ctx.assets layer levelPos)

/-- Fold over the (already reversed) layer list of one level. -/
def processLayers (ctx : SpawnCtx) (levelPos : Vec2) :
    List LayerInstance → List FieldInstance → List (String × LDTKEntityV) →
    List FieldInstance × List (String × LDTKEntityV) × List Event
  | [], fields, pp => (fields, pp, [])
  | layer :: rest, fields, pp =>
      let r1 := processLayer ctx levelPos layer fields pp
      let r2 := processLayers ctx levelPos rest r1.1 r1.2.1
      (r2.1, r2.2.1, r1.2.2 ++ r2.2.2)

/-- Background draw callbacks registered for a level: the bg-color
rectangle, then the optional bg image at `levelPos` plus its offset. -/
def bgEvents (rootUrl : String) (levelPos : Vec2) (level : Level) : List Event :=
  Event.drawRect levelPos level.pxWid level.pxHei level.bgColor ::
  (match level.bgRelPath with
   | some p =>
       [Event.drawBg (rootUrl ++ p)
         ⟨levelPos.x + (match level.bgPos with | some b => b.topLeftPx.x | none => 0),
          levelPos.y + (match level.bgPos with | some b => b.topLeftPx.y | none => 0)⟩
         ⟨(match level.bgPos with | some b => b.scale.x | none => 1),
          (match level.bgPos with | some b => b.scale.y | none => 1)⟩]
   | none => [])

/-- One iteration of the per-level loop of `spawn`: compute `levelPos`
against the full (sorted) list, register background draws, process the
layers in reverse stored order, and return the level as the in-place
mutations leave it (layer list reversed, shared field list grown). -/
def processLevel (ctx : SpawnCtx) (allLevels : List Level)
    (pp : List (String × LDTKEntityV)) (level : Level) :
    Level × List (String × LDTKEntityV) × List Event :=
  let levelPos := levelPosFor ctx.layout ctx.offset allLevels level
  let layers := (level.layerInstances.getD []).reverse
  let r := processLayers ctx levelPos layers level.fieldInstances pp
  ({ level with layerInstances := level.layerInstances.map List.reverse
              , fieldInstances := r.1 },
   r.2.1, bgEvents ctx.rootUrl levelPos level ++ r.2.2)

/-- The per-level loop of `spawn`, threading the deferred post-init table
and collecting the mutated levels and the dispatched events. -/
def processLevels (ctx : SpawnCtx) (allLevels : List Level) :
    List Level → List (String × LDTKEntityV) →
    List Level × List (String × LDTKEntityV) × List Event
  | [], pp => ([], pp, [])
  | level :: rest, pp =>
      let r1 := processLevel ctx allLevels pp level
      let r2 := processLevels ctx allLevels rest r1.2.1
      (r1.1 :: r2.1, r2.2.1, r1.2.2 ++ r2.2.2)

/-- `spawn`. Without loaded data it reports and no-ops. It selects (or
synthesizes) the world list, reads the world at the configured index — a
missing entry makes the next property read throw, modelled as `.error` —
sorts the levels by depth in place, walks them, runs the deferred
post-init callbacks in first-insertion order, clears the deferred table,
and leaves the document with the sorted, mutated levels written back. -/
def spawn (s : ProjectState) : Except String (ProjectState × List Event) :=
  match s.data with
  | none =>
      .ok (s, [Event.errorLog ("Failed to load LDTK project: LDTK data not loaded. Call loadFromObject or loadFromURL first.")])
  | some data =>
      match (worldsOf data)[s.worldIndex]? with
      | none => .error ("TypeError: Cannot read properties of undefined (reading worldLayout)")
      | some world =>
          let layout := world.worldLayout
          let sorted := sortLevels world.levels
          let ctx : SpawnCtx :=
            ⟨s.entities, s.numIntGridHandlers, s.assets, s.rootUrl, layout, s.levelOffset⟩
          let r := processLevels ctx sorted sorted s.postProcessEntities
          let postEvs := r.2.1.map (fun kv => Event.postInit kv.2)
          let data1 :=
            if data.worlds.length = 0 then { data with levels := r.1 }
            else { data with worlds := data.worlds.set s.worldIndex { world with levels := r.1 } }
          .ok ({ s with data := some data1, postProcessEntities := [] }, r.2.2 ++ postEvs)

/-- The state / event trace of a successful `spawn`; a raising `spawn`
yields the unchanged state and no events. -/
def spawnOut (s : ProjectState) : ProjectState × List Event :=
  match spawn s with
  | .ok r => r
  | .error _ => (s, [])

/-- Field instances a layer appends to the level's shared field list:
every entity instance's own fields, in order, for Entities layers. -/
def layerOwnFields (ly : LayerInstance) : List FieldInstance :=
  if ly.type = LayerType.Entities
  then (ly.entityInstances.map EntityInstance.fieldInstances).flatten
  else []

/-- Field instances one spawn pass appends to a level's shared field list. -/
def levelExtraFields (lv : Level) : List FieldInstance :=
  ((lv.layerInstances.getD []).reverse.map layerOwnFields).flatten

/-- How one spawn pass leaves a level object: layer list reversed in place,
shared field list grown by the processed entities' own fields. -/
def spawnLevelTransform (lv : Level) : Level :=
  { lv with layerInstances := lv.layerInstances.map List.reverse
          , fieldInstances := lv.fieldInstances ++ levelExtraFields lv }

/-- The field-free part of the entity value built for an instance: name,
world position, size and instance id. -/
def strippedEntityVal (levelPos : Vec2) (ent : EntityInstance) : LDTKEntityV :=
  { name := ent.identifier
  , pos := Vec2.add ent.px levelPos
  , size := ⟨ent.width.getD 0, ent.height.getD 0⟩
  , fieldsRaw := []
  , fields := []
  , id := ent.iid }

/-- Field-free entity values deferred for post-init by a run of the entity
loop: the instances whose name is registered with a post-init callback. -/
def strippedAdds (regs : List (String × Bool)) (levelPos : Vec2)
    (ents : List EntityInstance) : List LDTKEntityV :=
  ents.filterMap (fun ent =>
    if recordGet regs ent.identifier = some true
    then some (strippedEntityVal levelPos ent)
    else none)

/-- Entity instance ids a layer walks (Entities layers only). -/
def layerWalkIids (ly : LayerInstance) : List String :=
  if ly.type = LayerType.Entities then ly.entityInstances.map EntityInstance.iid else []

/-- Entity instance ids one level walks, in processing order. -/
def levelWalkIids (lv : Level) : List String :=
  ((lv.layerInstances.getD []).reverse.map layerWalkIids).flatten

/-- Entity instance ids a spawn pass walks, in processing order. -/
def walkIids (lvs : List Level) : List String := (lvs.map levelWalkIids).flatten

/-- All entity instance ids stored in one level, in document order. -/
def levelDocIids (lv : Level) : List String :=
  ((lv.layerInstances.getD []).map (fun ly =>
    ly.entityInstances.map EntityInstance.iid)).flatten

/-- All entity instance ids stored in a world, in document order. -/
def worldEntityIids (w : World) : List String :=
  (w.levels.map levelDocIids).flatten

/-- Projection of the deferred post-init table to keys and field-free
entity values. -/
def ppStrip (pp : List (String × LDTKEntityV)) : List (String × LDTKEntityV) :=
  pp.map (fun kv => (kv.1, stripEntityV kv.2))

/-- Field-free rendering of the init/error dispatch sequence of an entity
list: one event per instance, init for registered names, reported error
otherwise. -/
def strippedEntityEvents (regs : List (String × Bool)) (levelPos : Vec2)
    (ents : List EntityInstance) : List Event :=
  ents.map (fun ent =>
    match recordGet regs ent.identifier with
    | some _ => Event.initEntity (strippedEntityVal levelPos ent)
    | none => Event.errorLog ("No entity registered for " ++ ent.identifier))

/-- Field-free event block of one layer. -/
def layerStrippedEvents (ctx : SpawnCtx) (levelPos : Vec2) (ly : LayerInstance) : List Event :=
  match ly.type with
  | .Entities => strippedEntityEvents ctx.regs levelPos ly.entityInstances
  | .IntGrid => loadIntGridTiles ctx.numHandlers ly levelPos
  | .Tiles => loadTiles ctx.assets ly levelPos
  | .AutoLayer => loadTiles ctx.assets ly levelPos

/-- Field-free event block of one level: backgrounds, then the reversed
layer blocks. -/
def levelStrippedEvents (ctx : SpawnCtx) (allLevels : List Level) (lv : Level) : List Event :=
  bgEvents ctx.rootUrl (levelPosFor ctx.layout ctx.offset allLevels lv) lv ++
  ((lv.layerInstances.getD []).reverse.map
    (layerStrippedEvents ctx (levelPosFor ctx.layout ctx.offset allLevels lv))).flatten

/-- Field-free deferred entities contributed by one layer. -/
def layerAdds (regs : List (String × Bool)) (levelPos : Vec2)
    (ly : LayerInstance) : List LDTKEntityV :=
  if ly.type = LayerType.Entities then strippedAdds regs levelPos ly.entityInstances else []

/-- Field-free deferred entities contributed by one level, in walk order. -/
def levelAdds (ctx : SpawnCtx) (allLevels : List Level) (lv : Level) : List LDTKEntityV :=
  ((lv.layerInstances.getD []).reverse.map
    (layerAdds ctx.regs (levelPosFor ctx.layout ctx.offset allLevels lv))).flatten

/-- Field-free deferred entities of a whole pass, in walk order. -/
def levelsAdds (ctx : SpawnCtx) (allLevels : List Level) (lvs : List Level) : List LDTKEntityV :=
  (lvs.map (levelAdds ctx allLevels)).flatten

/-- A level with neutral defaults, used to build concrete test documents. -/
def baseLevel : Level :=
  { iid := "level-0"
  , pxWid := 100
  , pxHei := 80
  , worldX := 0
  , worldY := 0
  , worldDepth := 0
  , bgColor := "#000000"
  , bgRelPath := none
  , bgPos := none
  , layerInstances := none
  , fieldInstances := []
  , externalRelPath := "level-0.ldtkl" }

/-- A layer with neutral defaults, used to build concrete test documents. -/
def baseLayer : LayerInstance :=
  { identifier := "layer-0"
  , type := LayerType.IntGrid
  , tilesetRelPath := none
  , gridSize := 16
  , cWid := 4
  , intGridCsv := []
  , entityInstances := []
  , gridTiles := []
  , autoLayerTiles := [] }

/-- A document with neutral defaults, used to build concrete test documents. -/
def baseDoc : LDTKJSONRoot :=
  { worlds := []
  , levels := []
  , tilesets := []
  , worldLayout := WorldLayout.Free
  , worldGridWidth := none
  , worldGridHeight := none
  , defaultLevelWidth := none
  , defaultLevelHeight := none
  , externalLevels := false }

/-- An entity instance with neutral defaults, for concrete test documents. -/
def baseEnt : EntityInstance :=
  { identifier := "Player"
  , iid := "ent-0"
  , px := ⟨8, 24⟩
  , width := some 16
  , height := some 16
  , fieldInstances := [] }

/-- Concrete asset store: one 256 by 256 atlas of 16 by 16 tiles. -/
def c8Store : AssetStore :=
  addAsset [] ("tiles.png")
    { name := "tiles.png", size := ⟨256, 256⟩, tileSize := ⟨16, 16⟩
    , spacing := 0, padding := 0, uid := 1, dataPath := "./tiles.png" }

/-- Concrete IntGrid layer holding a single zero-valued cell. -/
def c1Layer : LayerInstance :=
  { baseLayer with identifier := "grid", intGridCsv := [0] }

/-- Concrete document with one level holding `c1Layer`. -/
def c1Doc : LDTKJSONRoot :=
  { baseDoc with levels := [{ baseLevel with layerInstances := some [c1Layer] }] }

/-- Loaded project with one registered IntGrid handler over `c1Doc`. -/
def c1State : ProjectState := registerIntGrid { data := some c1Doc }

/-- Concrete IntGrid layer with cells `[0, 5]`. -/
def c1wLayer : LayerInstance :=
  { baseLayer with identifier := "grid", intGridCsv := [0, 5] }

/-- Concrete entity whose own field list holds one field named B. -/
def c2Ent1 : EntityInstance :=
  { baseEnt with iid := "e1", fieldInstances := [⟨"B", "Int", 2⟩] }

/-- Concrete entity with no own fields. -/
def c2Ent2 : EntityInstance := { baseEnt with iid := "e2" }

/-- Concrete level shared field list holding one field named A. -/
def c2Shared : List FieldInstance := [⟨"A", "Int", 1⟩]

/-- Concrete entity whose own fields define Speed = 2. -/
def c2wEnt : EntityInstance :=
  { baseEnt with fieldInstances := [⟨"Speed", "Int", 2⟩] }

/-- Concrete shared field list defining Speed = 1. -/
def c2wShared : List FieldInstance := [⟨"Speed", "Int", 1⟩]

/-- Registration table with an init callback (no post-init) for Player. -/
def c2wRegs : List (String × Bool) := [("Player", false)]

/-- The entity value built for `c2wEnt` over `c2wShared`. -/
def c2wEntity : LDTKEntityV :=
  { name := "Player"
  , pos := ⟨8, 24⟩
  , size := ⟨16, 16⟩
  , fieldsRaw := [⟨"Speed", "Int", 1⟩, ⟨"Speed", "Int", 2⟩]
  , fields := [("Speed", 2)]
  , id := "ent-0" }

/-- The context a spawn pass builds for the selected world. -/
def spawnCtxOf (s : ProjectState) (w : World) : SpawnCtx :=
  ⟨s.entities, s.numIntGridHandlers, s.assets, s.rootUrl, w.worldLayout, s.levelOffset⟩

/-- Concrete layer named first. -/
def c4LayerA : LayerInstance := { baseLayer with identifier := "first" }

/-- Concrete layer named second. -/
def c4LayerB : LayerInstance := { baseLayer with identifier := "second" }

/-- Concrete level with two layers, for observing the in-place reversal. -/
def c4Level : Level := { baseLevel with layerInstances := some [c4LayerA, c4LayerB] }

/-- Concrete document holding `c4Level`. -/
def c4Doc : LDTKJSONRoot := { baseDoc with levels := [c4Level] }

/-- Loaded project over `c4Doc`. -/
def c4State : ProjectState := { data := some c4Doc }

/-- Concrete IntGrid layer with the single cell 3. -/
def c3Layer : LayerInstance := { baseLayer with intGridCsv := [3] }

/-- Concrete external-level stub whose body holds `c3Layer`. -/
def c3Stub : Level :=
  { baseLevel with externalRelPath := "a.ldtkl", layerInstances := some [c3Layer] }

/-- Concrete split-mode document (externalLevels true) with one stub. -/
def c3Doc : LDTKJSONRoot :=
  { baseDoc with externalLevels := true, levels := [c3Stub] }

/-- Fresh project with one registered IntGrid handler, nothing loaded. -/
def c3State : ProjectState := registerIntGrid {}

/-- Concrete world with one level. -/
def c5World : World :=
  { iid := "w0"
  , identifier := "World"
  , worldGridWidth := 256
  , worldGridHeight := 256
  , worldLayout := WorldLayout.Free
  , levels := [baseLevel]
  , defaultLevelWidth := 256
  , defaultLevelHeight := 256 }

/-- Concrete document with exactly one world. -/
def c5Doc : LDTKJSONRoot := { baseDoc with worlds := [c5World] }

/-- Loaded project configured with world index 1 over the one-world
document: the worlds list is non-empty but has no world at the index. -/
def c5State : ProjectState := { data := some c5Doc, worldIndex := 1 }

/-- Concrete level a, width 100. -/
def c7LevelA : Level := { baseLevel with iid := "a", pxWid := 100 }

/-- Concrete level b, width 150. -/
def c7LevelB : Level := { baseLevel with iid := "b", pxWid := 150 }

/-- Concrete level c, width 200. -/
def c7LevelC : Level := { baseLevel with iid := "c", pxWid := 200 }

/-- Concrete linear-horizontal document with levels of widths 100/150/200. -/
def c7Doc : LDTKJSONRoot :=
  { baseDoc with
      worldLayout := WorldLayout.LinearHorizontal
    , levels := [c7LevelA, c7LevelB, c7LevelC] }

/-- Loaded project over `c7Doc` with configured offset 10. -/
def c7State : ProjectState := { data := some c7Doc, levelOffset := 10 }

/-- Constructor options explicitly setting the level offset to 0. -/
def c10Opts : LDTKOptions := { levelOffset := some 0 }

/-- Concrete level for the consecutive-gap observation, width 100. -/
def c10LevelA : Level := { baseLevel with iid := "a", pxWid := 100, pxHei := 90 }

/-- Concrete level for the consecutive-gap observation, width 150. -/
def c10LevelB : Level := { baseLevel with iid := "b", pxWid := 150, pxHei := 120 }

/-- Concrete two-level list for the consecutive-gap observation. -/
def c10Levels : List Level := [c10LevelA, c10LevelB]

/-- Concrete entity p1 of registered type Player (with post-init). -/
def c6Ent1 : EntityInstance := { baseEnt with iid := "p1" }

/-- Concrete entity co1 of registered type Coin (no post-init). -/
def c6Ent2 : EntityInstance := { baseEnt with identifier := "Coin", iid := "co1" }

/-- Concrete entity g1 of unregistered type Ghost. -/
def c6Ent3 : EntityInstance := { baseEnt with identifier := "Ghost", iid := "g1" }

/-- Concrete entities layer holding p1, co1, g1. -/
def c6Layer : LayerInstance :=
  { baseLayer with type := LayerType.Entities, entityInstances := [c6Ent1, c6Ent2, c6Ent3] }

/-- Concrete level holding `c6Layer`. -/
def c6Level : Level := { baseLevel with layerInstances := some [c6Layer] }

/-- Concrete document holding `c6Level`. -/
def c6Doc : LDTKJSONRoot := { baseDoc with levels := [c6Level] }

/-- Loaded project over `c6Doc` with Player (post-init) and Coin registered. -/
def c6State : ProjectState :=
  registerEntity (registerEntity { data := some c6Doc } ("Player") true) ("Coin") false

/-- C9 demo: Player instance on the first declared layer. -/
def c9Ent1 : EntityInstance := { baseEnt with iid := "c9-a" }

/-- C9 demo: Coin instance on the second declared layer. -/
def c9Ent2 : EntityInstance :=
  { baseEnt with identifier := "Coin", iid := "c9-b", px := ⟨32, 16⟩ }

/-- C9 demo: first entities layer, holding the Player. -/
def c9LayerA : LayerInstance :=
  { baseLayer with identifier := "c9-first", type := LayerType.Entities
                 , entityInstances := [c9Ent1] }

/-- C9 demo: second entities layer, holding the Coin. -/
def c9LayerB : LayerInstance :=
  { baseLayer with identifier := "c9-second", type := LayerType.Entities
                 , entityInstances := [c9Ent2] }

/-- C9 demo: a level declaring the two entity layers in order. -/
def c9Level : Level := { baseLevel with layerInstances := some [c9LayerA, c9LayerB] }

/-- C9 demo: document holding `c9Level` in its top-level level list. -/
def c9Doc : LDTKJSONRoot := { baseDoc with levels := [c9Level] }

/-- C9 demo: loaded project over `c9Doc` with Player post-init and Coin plain. -/
def c9State : ProjectState :=
  registerEntity (registerEntity { data := some c9Doc } ("Player") true) ("Coin") false

/-! ### Record (JS object) lemmas -/

theorem recordGet_set_self {α : Type} (m : List (String × α)) (k : String) (v : α) :
    recordGet (recordSet m k v) k = some v := by
  by_cases hs : (m.find? (fun e => e.1 == k)).isSome = true
  · obtain ⟨a, hfind⟩ := Option.isSome_iff_exists.mp hs
    unfold recordSet recordGet
    rw [if_pos hs, List.find?_map]
    have hpf : ((fun (e : String × α) => e.1 == k) ∘
        (fun e => if e.1 == k then (k, v) else e)) = fun e => e.1 == k := by
      funext e
      by_cases he : e.1 = k <;> simp [he]
    rw [hpf, hfind]
    have hak := List.find?_some hfind
    have ha1 : a.1 = k := by simpa using hak
    simp [ha1]
  · unfold recordSet recordGet
    rw [if_neg hs, List.find?_append, Option.not_isSome_iff_eq_none.mp hs]
    simp [List.find?]

theorem recordGet_set_ne {α : Type} (m : List (String × α)) (k k' : String) (v : α)
    (h : k' ≠ k) : recordGet (recordSet m k v) k' = recordGet m k' := by
  by_cases hs : (m.find? (fun e => e.1 == k)).isSome = true
  · unfold recordSet recordGet
    rw [if_pos hs, List.find?_map]
    have hpf : ((fun (e : String × α) => e.1 == k') ∘
        (fun e => if e.1 == k then (k, v) else e)) = fun e => e.1 == k' := by
      funext e
      have hkk : ¬ k = k' := fun hk => h hk.symm
      by_cases he : e.1 = k
      · simp [he, hkk]
      · simp [he]
    rw [hpf]
    cases hfind : m.find? (fun e => e.1 == k') with
    | none => simp
    | some a =>
        have ha := List.find?_some hfind
        have ha1 : a.1 = k' := by simpa using ha
        have hane : ¬ a.1 = k := by rw [ha1]; exact h
        simp [hane]
  · unfold recordSet recordGet
    rw [if_neg hs, List.find?_append]
    have hkk : ¬ k = k' := fun hk => h hk.symm
    have hb : (k == k') = false := beq_eq_false_iff_ne.mpr hkk
    have hone : List.find? (fun (e : String × α) => e.1 == k') [(k, v)] = none := by
      simp [List.find?, hb]
    rw [hone, Option.or_none]

theorem recordSet_fresh {α : Type} (m : List (String × α)) (k : String) (v : α)
    (h : ∀ e ∈ m, e.1 ≠ k) : recordSet m k v = m ++ [(k, v)] := by
  unfold recordSet
  have hnone : m.find? (fun e => e.1 == k) = none :=
    List.find?_eq_none.mpr (fun x hx => by simpa using h x hx)
  simp [hnone]

theorem buildFields_concat (l : List FieldInstance) (f : FieldInstance) :
    buildFields (l ++ [f]) = recordSet (buildFields l) f.identifier f.value := by
  simp [buildFields, List.foldl_append]

theorem lastField_concat (l : List FieldInstance) (f : FieldInstance) (k : String) :
    lastField (l ++ [f]) k =
      if f.identifier == k then some f.value else lastField l k := by
  unfold lastField
  rw [List.reverse_append]
  simp only [List.reverse_cons, List.reverse_nil, List.nil_append, List.cons_append,
    List.nil_append, List.find?]
  by_cases hf : f.identifier == k <;> simp [hf]

/-- The entity field dictionary resolves a name to the value of its last
occurrence in the raw field list (later writes win). -/
theorem recordGet_buildFields (l : List FieldInstance) (k : String) :
    recordGet (buildFields l) k = lastField l k := by
  induction l using List.reverseRecOn with
  | nil => simp [buildFields, lastField, recordGet, List.find?]
  | append_singleton l f ih =>
      rw [buildFields_concat, lastField_concat]
      by_cases h : f.identifier == k
      · have hk : f.identifier = k := eq_of_beq h
        rw [← hk, recordGet_set_self]
        simp [h]
      · have hk : k ≠ f.identifier := fun he => by simp [he] at h
        rw [recordGet_set_ne _ _ _ _ hk, ih]
        simp [h]

theorem lastField_append (a b : List FieldInstance) (k : String) :
    lastField (a ++ b) k = (lastField b k).or (lastField a k) := by
  unfold lastField
  rw [List.reverse_append, List.find?_append]
  cases (b.reverse.find? fun f => f.identifier == k) <;> simp

end LDTK




namespace LDTK

/-! ### C8: quad computation -/

/-- C8: for every registered asset, the quad lookup for tile column/row
coordinate (col, row) returns the normalized rectangle
((col·tileW + s·col + p)/atlasW, (row·tileH + s·row + p)/atlasH,
tileW/atlasW, tileH/atlasH), and it returns the not-found sentinel for an
unknown asset name. -/
theorem getQuad_formula (st : AssetStore) (name : String) (col row : ℚ) :
    (∀ a : LDTKAsset, getAsset st name = some a →
      getQuad st name ⟨col, row⟩ = some
        { x := (col * a.tileSize.x + a.spacing * col + a.padding) / a.size.x
        , y := (row * a.tileSize.y + a.spacing * row + a.padding) / a.size.y
        , w := a.tileSize.x / a.size.x
        , h := a.tileSize.y / a.size.y }) ∧
    (getAsset st name = none → getQuad st name ⟨col, row⟩ = none) := by
  constructor
  · intro a ha
    unfold getQuad
    rw [ha]
  · intro ha
    unfold getQuad
    rw [ha]

/-- C8 witness: on a 256 by 256 atlas with 16 by 16 tiles, spacing 0 and
padding 0, tile coordinate (2,3) yields (0.125, 0.1875, 0.0625, 0.0625),
and an unknown name yields the sentinel. -/
theorem getQuad_formula_witness :
    getQuad c8Store ("tiles.png") ⟨2, 3⟩ =
      some ⟨(1 : ℚ)/8, (3 : ℚ)/16, (1 : ℚ)/16, (1 : ℚ)/16⟩ ∧
    getQuad c8Store ("missing.png") ⟨2, 3⟩ = none := by
  constructor
  · have h := (getQuad_formula c8Store ("tiles.png") 2 3).1
      { name := "tiles.png", size := ⟨256, 256⟩, tileSize := ⟨16, 16⟩
      , spacing := 0, padding := 0, uid := 1, dataPath := "./tiles.png" }
      (by decide)
    rw [h]
    simp only [Option.some_inj, Quad.mk.injEq]
    norm_num
  · exact (getQuad_formula c8Store ("missing.png") 2 3).2 (by decide)

/-! ### C1: IntGrid dispatch -/

theorem intGridEvents_length (n : Nat) (layer : LayerInstance) (pos : Vec2) :
    ∀ (csv : List Int) (p0 : Nat),
      (intGridEvents n layer pos csv p0).length = csv.length * n := by
  intro csv
  induction csv with
  | nil => intro p0; simp [intGridEvents]
  | cons w rest ih =>
      intro p0
      simp only [intGridEvents, List.length_append, List.length_map,
        List.length_range, ih, List.length_cons]
      ring

theorem intGridEvents_getElem (n : Nat) (layer : LayerInstance) (pos : Vec2) :
    ∀ (csv : List Int) (p0 i h : Nat) (v : Int), h < n → csv[i]? = some v →
      (intGridEvents n layer pos csv p0)[i * n + h]? = some (Event.intGridTile h
        { id := layer.identifier
        , pos := intGridCellPos layer.gridSize layer.cWid pos (p0 + i)
        , size := ⟨layer.gridSize, layer.gridSize⟩
        , value := v }) := by
  intro csv
  induction csv with
  | nil => intro p0 i h v hh hv; simp at hv
  | cons w rest ih =>
      intro p0 i h v hh hv
      cases i with
      | zero =>
          have hv0 : w = v := by simpa using hv
          subst hv0
          simp only [intGridEvents, Nat.zero_mul, Nat.zero_add]
          rw [List.getElem?_append]
          have hlt : h < ((List.range n).map (fun hh => Event.intGridTile hh
              { id := layer.identifier
              , pos := intGridCellPos layer.gridSize layer.cWid pos p0
              , size := ⟨layer.gridSize, layer.gridSize⟩
              , value := w })).length := by
            simpa using hh
          rw [if_pos hlt, List.getElem?_map, List.getElem?_range hh]
          simp
      | succ i =>
          have hv' : rest[i]? = some v := by simpa using hv
          have hlen : ((List.range n).map (fun hh => Event.intGridTile hh
              { id := layer.identifier
              , pos := intGridCellPos layer.gridSize layer.cWid pos p0
              , size := ⟨layer.gridSize, layer.gridSize⟩
              , value := w })).length = n := by simp
          simp only [intGridEvents]
          rw [List.getElem?_append_right (by rw [hlen]; nlinarith [Nat.succ_mul i n])]
          rw [hlen]
          have hidx : (i + 1) * n + h - n = i * n + h := by
            have : (i + 1) * n = i * n + n := Nat.succ_mul i n
            omega
          rw [hidx, ih (p0 + 1) i h v hh hv']
          have : p0 + 1 + i = p0 + (i + 1) := by omega
          rw [this]

/-- C1 counterexample: a loaded project with one registered IntGrid handler
and one IntGrid layer whose flat array is the single cell `[0]`. The claim
predicts (handlers) times (non-zero cells) = 1 x 0 = 0 invocations, but the
spawn pass dispatches the handler once, with a tile of value 0: zero-valued
cells are not skipped. -/
theorem c1_counterexample :
    ((spawnOut c1State).2.filter Event.isIntGrid).length = 1 ∧
    (c1Layer.intGridCsv.filter (fun v => v != 0)).length = 0 ∧
    Event.intGridTile 0 { id := "grid", pos := ⟨0, 0⟩, size := ⟨16, 16⟩, value := 0 }
      ∈ (spawnOut c1State).2 := by
  decide

/-- C1 amended: during spawn IntGrid processing, every registered handler is
invoked exactly once per cell of the layer's flat array — zero-valued cells
included, each handler receiving a fresh tile carrying that cell's value —
so the total number of handler invocations equals (number of cells) times
(number of registered handlers); the invocation at position p·n+h of the
dispatch sequence is handler h on the row-major cell p. -/
theorem loadIntGridTiles_spec (n : Nat) (layer : LayerInstance) (pos : Vec2) :
    (loadIntGridTiles n layer pos).length = layer.intGridCsv.length * n ∧
    (∀ (p h : Nat) (v : Int), h < n → layer.intGridCsv[p]? = some v →
      (loadIntGridTiles n layer pos)[p * n + h]? = some (Event.intGridTile h
        { id := layer.identifier
        , pos := intGridCellPos layer.gridSize layer.cWid pos p
        , size := ⟨layer.gridSize, layer.gridSize⟩
        , value := v })) := by
  constructor
  · exact intGridEvents_length n layer pos layer.intGridCsv 0
  · intro p h v hh hv
    have := intGridEvents_getElem n layer pos layer.intGridCsv 0 p h v hh hv
    simpa using this

/-- C1 witness: two handlers over the two-cell array `[0, 5]` make four
invocations; invocation 1·2+1 = 3 is handler 1 on cell 1 (value 5,
position x = 16). -/
theorem loadIntGridTiles_spec_witness :
    (loadIntGridTiles 2 c1wLayer ⟨0, 0⟩).length = 4 ∧
    (loadIntGridTiles 2 c1wLayer ⟨0, 0⟩)[3]? =
      some (Event.intGridTile 1 { id := "grid", pos := ⟨16, 0⟩, size := ⟨16, 16⟩, value := 5 }) := by
  obtain ⟨h1, h2⟩ := loadIntGridTiles_spec 2 c1wLayer ⟨0, 0⟩
  constructor
  · rw [h1]; decide
  · have h3 := h2 1 1 5 (by decide) (by decide)
    rw [show (3 : Nat) = 1 * 2 + 1 from rfl, h3]
    decide

end LDTK

namespace LDTK

/-! ### C2: field merging -/

/-- C2 counterexample: one Entities layer with two instances over the shared
field list [A]. The first instance pushes its own field B into the shared
list, so the entity value handed to the init callback for the SECOND
instance carries raw fields [A, B] — not the claimed shared-plus-own [A]. -/
theorem c2_counterexample :
    (loadLayerEntities [("Player", false)] ⟨0, 0⟩ [c2Ent1, c2Ent2] c2Shared []).2.2[1]? =
      some (Event.initEntity
        { name := "Player", pos := ⟨8, 24⟩, size := ⟨16, 16⟩
        , fieldsRaw := [⟨"A", "Int", 1⟩, ⟨"B", "Int", 2⟩]
        , fields := [("A", 1), ("B", 2)], id := "e2" }) ∧
    [FieldInstance.mk ("A") ("Int") 1, FieldInstance.mk ("B") ("Int") 2] ≠
      c2Shared ++ c2Ent2.fieldInstances := by
  decide

/-- C2 amended: the k-th entity of an Entities layer receives a raw field
list equal to the level's field list as accumulated at that point — the
shared list plus all previously processed instances' own fields — with its
own fields appended last; a name occurring both earlier and in the own
fields therefore resolves to the instance's own (last) value. -/
theorem processEntity_fst (regs : List (String × Bool)) (levelPos : Vec2)
    (fields : List FieldInstance) (pp : List (String × LDTKEntityV)) (ent : EntityInstance) :
    (processEntity regs levelPos fields pp ent).1 = fields ++ ent.fieldInstances := by
  simp only [processEntity]
  split <;> rfl

theorem processEntity_len (regs : List (String × Bool)) (levelPos : Vec2)
    (fields : List FieldInstance) (pp : List (String × LDTKEntityV)) (ent : EntityInstance) :
    (processEntity regs levelPos fields pp ent).2.2.length = 1 := by
  simp only [processEntity]
  split <;> rfl

/-- C2 amended: the k-th entity of an Entities layer receives a raw field
list equal to the level's field list as accumulated at that point — the
shared list plus all previously processed instances' own fields — with its
own fields appended last; a name occurring both earlier and in the own
fields therefore resolves to the instance's own (last) value. -/
theorem loadLayerEntities_fields_spec (regs : List (String × Bool)) (levelPos : Vec2)
    (ents : List EntityInstance) (fields0 : List FieldInstance)
    (pp : List (String × LDTKEntityV)) :
    (loadLayerEntities regs levelPos ents fields0 pp).2.2.length = ents.length ∧
    (∀ (k : Nat) (ent : EntityInstance) (e : LDTKEntityV),
      ents[k]? = some ent →
      (loadLayerEntities regs levelPos ents fields0 pp).2.2[k]? = some (Event.initEntity e) →
      e.fieldsRaw = fields0 ++ ((ents.take (k + 1)).map EntityInstance.fieldInstances).flatten ∧
      (∀ (key : String) (v : Int),
        lastField ent.fieldInstances key = some v → recordGet e.fields key = some v)) := by
  induction ents generalizing fields0 pp with
  | nil =>
      refine ⟨by simp [loadLayerEntities], ?_⟩
      intro k ent e hent _
      simp at hent
  | cons ent rest ih =>
      constructor
      · simp only [loadLayerEntities]
        rw [List.length_append, processEntity_len,
          (ih (processEntity regs levelPos fields0 pp ent).1
            (processEntity regs levelPos fields0 pp ent).2.1).1]
        simp [Nat.add_comm]
      · intro k enti e hent hev
        simp only [loadLayerEntities] at hev
        cases k with
        | zero =>
            have hent0 : ent = enti := by simpa using hent
            subst hent0
            rw [List.getElem?_append] at hev
            rw [if_pos (show (0:Nat) < (processEntity regs levelPos fields0 pp ent).2.2.length
              by rw [processEntity_len]; omega)] at hev
            cases hreg : recordGet regs ent.identifier with
            | none =>
                have hline : (processEntity regs levelPos fields0 pp ent).2.2 =
                    [Event.errorLog ("No entity registered for " ++ ent.identifier)] := by
                  simp [processEntity, hreg]
                rw [hline] at hev
                simp at hev
            | some hasPost =>
                have hline : (processEntity regs levelPos fields0 pp ent).2.2 =
                    [Event.initEntity
                      ({ name := ent.identifier
                       , pos := Vec2.add ent.px levelPos
                       , size := ⟨ent.width.getD 0, ent.height.getD 0⟩
                       , fieldsRaw := fields0 ++ ent.fieldInstances
                       , fields := buildFields (fields0 ++ ent.fieldInstances)
                       , id := ent.iid })] := by
                  simp [processEntity, hreg]
                rw [hline] at hev
                simp only [List.getElem?_cons_zero, Option.some_inj, Event.initEntity.injEq] at hev
                subst hev
                refine ⟨by simp, ?_⟩
                intro key v hv
                show recordGet (buildFields (fields0 ++ ent.fieldInstances)) key = some v
                rw [recordGet_buildFields, lastField_append, hv]
                rfl
        | succ k =>
            rw [List.getElem?_append_right (by rw [processEntity_len]; omega),
              processEntity_len] at hev
            have hent2 : rest[k]? = some enti := by simpa using hent
            rw [processEntity_fst] at hev
            have hrec := (ih (fields0 ++ ent.fieldInstances)
              (processEntity regs levelPos fields0 pp ent).2.1).2 k enti e hent2 (by
                have hidx : k + 1 - 1 = k := by omega
                rw [hidx] at hev
                exact hev)
            refine ⟨?_, hrec.2⟩
            rw [hrec.1]
            simp [List.take_succ_cons, List.append_assoc]

/-- C2 witness: one entity whose own fields define Speed = 2, over a shared
list defining Speed = 1: its raw list is the shared list with the own
fields appended, and the field dictionary resolves Speed to the own 2. -/
theorem loadLayerEntities_fields_spec_witness :
    c2wEntity.fieldsRaw =
      c2wShared ++ ((([c2wEnt].take (0 + 1)).map EntityInstance.fieldInstances).flatten) ∧
    recordGet c2wEntity.fields ("Speed") = some 2 := by
  have h := (loadLayerEntities_fields_spec c2wRegs ⟨0, 0⟩ [c2wEnt] c2wShared []).2
    0 c2wEnt c2wEntity (by decide) (by decide)
  exact ⟨h.1, h.2 ("Speed") 2 (by decide)⟩

/-! ### C3: external-level fetch failure -/

theorem fetchLevels_error_iff (fetch : String → Option Level) (paths : List String) :
    fetchLevels fetch paths = .error () ↔ ∃ p ∈ paths, fetch p = none := by
  induction paths with
  | nil => simp [fetchLevels]
  | cons p ps ih =>
      cases hf : fetch p with
      | none =>
          constructor
          · intro _
            exact ⟨p, List.mem_cons_self p ps, hf⟩
          · intro _
            unfold fetchLevels
            rw [hf]
      | some l =>
          cases hr : fetchLevels fetch ps with
          | error e =>
              cases e
              constructor
              · intro _
                obtain ⟨q, hq, hfq⟩ := ih.mp hr
                exact ⟨q, List.mem_cons_of_mem p hq, hfq⟩
              · intro _
                unfold fetchLevels
                rw [hf, hr]
          | ok ls =>
              constructor
              · intro hcontra
                unfold fetchLevels at hcontra
                rw [hf, hr] at hcontra
                cases hcontra
              · intro hex
                obtain ⟨q, hq, hfq⟩ := hex
                rcases List.mem_cons.mp hq with hq0 | hqs
                · subst hq0
                  rw [hf] at hfq
                  cases hfq
                · have h2 := ih.mpr ⟨q, hqs, hfq⟩
                  rw [h2] at hr
                  cases hr

/-- C3 counterexample: a split-mode document whose single level fetch fails.
The load reports one error and returns, but `data` is already set to the
stub document, so the follow-up spawn() does NOT report the not-loaded
structural error — it walks the stub level and performs one IntGrid handler
invocation, contradicting the claimed Unloaded state and zero callbacks. -/
theorem c3_counterexample :
    (loadFromObject c3State c3Doc (fun _ => none)).2 =
      [Event.errorLog ("Failed to load LDTK project: external level fetch failed")] ∧
    (loadFromObject c3State c3Doc (fun _ => none)).1.data = some c3Doc ∧
    ((spawnOut (loadFromObject c3State c3Doc (fun _ => none)).1).2.filter Event.isIntGrid).length = 1 ∧
    ((spawnOut (loadFromObject c3State c3Doc (fun _ => none)).1).2.filter
      (fun e => e == Event.errorLog ("Failed to load LDTK project: LDTK data not loaded. Call loadFromObject or loadFromURL first."))) = [] := by
  decide

/-- C3 amended: when levels are external and some level fetch fails, the
load aborts at the first failure with a single reported error, replacing no
levels and registering no tilesets — but `this.data` has already been
assigned, so the instance is NOT left in the Unloaded state: the document
(with its stub levels) stays loaded and a later spawn() proceeds against it
instead of reporting the not-loaded structural error. -/
theorem loadFromObject_fetch_failure (s : ProjectState) (doc : LDTKJSONRoot)
    (fetch : String → Option Level)
    (hext : doc.externalLevels = true)
    (hfail : ∃ p ∈ doc.levels.map Level.externalRelPath, fetch (s.rootUrl ++ p) = none) :
    loadFromObject s doc fetch =
      ({ s with data := some doc },
       [Event.errorLog ("Failed to load LDTK project: external level fetch failed")]) ∧
    (loadFromObject s doc fetch).1.assets = s.assets ∧
    (loadFromObject s doc fetch).1.data = some doc := by
  have herr : fetchLevels (fun p => fetch (s.rootUrl ++ p))
      (doc.levels.map Level.externalRelPath) = .error () := by
    rw [fetchLevels_error_iff]
    obtain ⟨p, hp, hfp⟩ := hfail
    exact ⟨p, hp, hfp⟩
  have hmain : loadFromObject s doc fetch =
      ({ s with data := some doc },
       [Event.errorLog ("Failed to load LDTK project: external level fetch failed")]) := by
    simp only [loadFromObject, hext, if_true]
    rw [herr]
  exact ⟨hmain, by rw [hmain], by rw [hmain]⟩

/-- C3 witness: the concrete failing load of `c3Doc` with an always-failing
fetch satisfies the amended description. -/
theorem loadFromObject_fetch_failure_witness :
    loadFromObject c3State c3Doc (fun _ => none) =
      ({ c3State with data := some c3Doc },
       [Event.errorLog ("Failed to load LDTK project: external level fetch failed")]) ∧
    (loadFromObject c3State c3Doc (fun _ => none)).1.assets = c3State.assets ∧
    (loadFromObject c3State c3Doc (fun _ => none)).1.data = some c3Doc :=
  loadFromObject_fetch_failure c3State c3Doc (fun _ => none) (by decide)
    ⟨"a.ldtkl", by decide, rfl⟩

/-! ### C5: missing world index -/

/-- C5 counterexample: a loaded one-world document spawned with world
index 1: `spawn` raises (modelled `.error`) with the TypeError from reading
`worldLayout` of `undefined`, instead of reporting through the logging
collaborator and returning normally. -/
theorem c5_counterexample :
    spawn c5State =
      .error ("TypeError: Cannot read properties of undefined (reading worldLayout)") := by
  rfl

/-- C5 amended: if the loaded document's worlds list is non-empty but has
no world at the configured index, spawn() throws a TypeError (reading
`worldLayout` of `undefined`) that propagates to the caller; nothing is
reported via the logging collaborator and no placement happens. -/
theorem spawn_world_index_missing (s : ProjectState) (d : LDTKJSONRoot)
    (h : s.data = some d) (hne : d.worlds ≠ [])
    (hidx : d.worlds.length ≤ s.worldIndex) :
    spawn s =
      .error ("TypeError: Cannot read properties of undefined (reading worldLayout)") := by
  have hw : worldsOf d = d.worlds := by
    unfold worldsOf
    rw [if_neg (fun hlen => hne (List.length_eq_zero.mp hlen))]
  unfold spawn
  simp only [h]
  rw [hw, List.getElem?_eq_none hidx]

/-- C5 witness: the concrete out-of-range spawn raises the TypeError. -/
theorem spawn_world_index_missing_witness :
    spawn c5State =
      .error ("TypeError: Cannot read properties of undefined (reading worldLayout)") :=
  spawn_world_index_missing c5State c5Doc rfl (by decide) (by decide)

/-! ### C4: the spawn pass mutates the document -/

theorem loadLayerEntities_fst (regs : List (String × Bool)) (levelPos : Vec2)
    (ents : List EntityInstance) :
    ∀ (fields0 : List FieldInstance) (pp : List (String × LDTKEntityV)),
    (loadLayerEntities regs levelPos ents fields0 pp).1 =
      fields0 ++ (ents.map EntityInstance.fieldInstances).flatten := by
  induction ents with
  | nil => intro fields0 pp; simp [loadLayerEntities]
  | cons ent rest ih =>
      intro fields0 pp
      simp only [loadLayerEntities]
      rw [ih, processEntity_fst]
      simp [List.append_assoc]

theorem processLayer_fst (ctx : SpawnCtx) (levelPos : Vec2) (layer : LayerInstance)
    (fields : List FieldInstance) (pp : List (String × LDTKEntityV)) :
    (processLayer ctx levelPos layer fields pp).1 = fields ++ layerOwnFields layer := by
  obtain ⟨ident, ty, tsp, gs, cw, csv, ents, gt, alt⟩ := layer
  cases ty <;> simp [processLayer, layerOwnFields, loadLayerEntities_fst]

theorem processLayers_fst (ctx : SpawnCtx) (levelPos : Vec2)
    (layers : List LayerInstance) :
    ∀ (fields : List FieldInstance) (pp : List (String × LDTKEntityV)),
    (processLayers ctx levelPos layers fields pp).1 =
      fields ++ (layers.map layerOwnFields).flatten := by
  induction layers with
  | nil => intro fields pp; simp [processLayers]
  | cons l rest ih =>
      intro fields pp
      simp only [processLayers]
      rw [ih, processLayer_fst]
      simp [List.append_assoc]

theorem processLevel_fst (ctx : SpawnCtx) (allLevels : List Level)
    (pp : List (String × LDTKEntityV)) (level : Level) :
    (processLevel ctx allLevels pp level).1 = spawnLevelTransform level := by
  simp only [processLevel]
  rw [processLayers_fst]
  simp [spawnLevelTransform, levelExtraFields]

theorem processLevels_fst (ctx : SpawnCtx) (allLevels : List Level)
    (lvs : List Level) :
    ∀ (pp : List (String × LDTKEntityV)),
    (processLevels ctx allLevels lvs pp).1 = lvs.map spawnLevelTransform := by
  induction lvs with
  | nil => intro pp; simp [processLevels]
  | cons lv rest ih =>
      intro pp
      simp only [processLevels]
      rw [processLevel_fst, ih]
      simp

/-- Closed form of a successful `spawn`: the state carries the document
with the sorted, processed level list written back (in `levels` for the
synthesized-world case, in `worlds` otherwise) and a cleared deferred
table; the events are the walk followed by the deferred post-inits. -/
theorem spawn_eq (s : ProjectState) (d : LDTKJSONRoot) (w : World)
    (h : s.data = some d) (hw : (worldsOf d)[s.worldIndex]? = some w) :
    spawn s = .ok
      ({ s with
          data := some (if d.worlds.length = 0
            then { d with levels :=
              (processLevels (spawnCtxOf s w) (sortLevels w.levels)
                (sortLevels w.levels) s.postProcessEntities).1 }
            else { d with worlds := d.worlds.set s.worldIndex { w with levels :=
              (processLevels (spawnCtxOf s w) (sortLevels w.levels)
                (sortLevels w.levels) s.postProcessEntities).1 } })
        , postProcessEntities := [] },
       (processLevels (spawnCtxOf s w) (sortLevels w.levels)
         (sortLevels w.levels) s.postProcessEntities).2.2 ++
       ((processLevels (spawnCtxOf s w) (sortLevels w.levels)
         (sortLevels w.levels) s.postProcessEntities).2.1).map
           (fun kv => Event.postInit kv.2)) := by
  unfold spawn
  simp only [h]
  rw [hw]
  rfl

/-- C4 counterexample: spawning a loaded one-level document with two layers
leaves the document changed: the level's layerInstances list comes back in
reversed order (second layer first), so the document is not equal to the
loaded one. -/
theorem c4_counterexample :
    (spawnOut c4State).1.data ≠ some c4Doc ∧
    ((spawnOut c4State).1.data.map (fun d => (activeLevels d 0).map
      (fun (lv : Level) => (lv.layerInstances.getD []).map LayerInstance.identifier))) =
      some [["second", "first"]] ∧
    (c4Level.layerInstances.getD []).map LayerInstance.identifier = ["first", "second"] := by
  refine ⟨by decide, by decide, by decide⟩

/-- C4 amended: a spawn() pass mutates the loaded document in place: the
active world's level list is replaced by its depth-sorted permutation in
which every level has its layerInstances list reversed and its
fieldInstances list extended by the walked entities' own fields (all other
level attributes and the rest of the document — tileset definitions, world
count — are preserved). The document is only unchanged in trivial cases,
not in general. -/
theorem spawn_mutates_document (s : ProjectState) (d : LDTKJSONRoot) (w : World)
    (h : s.data = some d) (hw : (worldsOf d)[s.worldIndex]? = some w) :
    ∃ d1, (spawnOut s).1.data = some d1 ∧
      activeLevels d1 s.worldIndex = (sortLevels w.levels).map spawnLevelTransform ∧
      d1.tilesets = d.tilesets ∧
      d1.worlds.length = d.worlds.length := by
  have heq := spawn_eq s d w h hw
  have hout : (spawnOut s).1.data = some (if d.worlds.length = 0
      then { d with levels :=
        (processLevels (spawnCtxOf s w) (sortLevels w.levels)
          (sortLevels w.levels) s.postProcessEntities).1 }
      else { d with worlds := d.worlds.set s.worldIndex { w with levels :=
        (processLevels (spawnCtxOf s w) (sortLevels w.levels)
          (sortLevels w.levels) s.postProcessEntities).1 } }) := by
    unfold spawnOut
    rw [heq]
  have hfst := processLevels_fst (spawnCtxOf s w) (sortLevels w.levels)
    (sortLevels w.levels) s.postProcessEntities
  by_cases hzero : d.worlds.length = 0
  · have hwof : worldsOf d = [synthWorld d] := by
      unfold worldsOf
      rw [if_pos hzero]
    have hidx0 : s.worldIndex = 0 := by
      by_contra hne0
      rw [hwof, List.getElem?_eq_none
        (by simpa using Nat.one_le_iff_ne_zero.mpr hne0)] at hw
      cases hw
    have hwsynth : w = synthWorld d := by
      rw [hwof, hidx0] at hw
      simpa using hw.symm
    rw [if_pos hzero] at hout
    refine ⟨_, hout, ?_, rfl, rfl⟩
    unfold activeLevels worldsOf
    rw [if_pos (show _ = 0 by exact hzero)]
    rw [hidx0]
    exact hfst
  · have hlt : s.worldIndex < d.worlds.length := by
      have hwof : worldsOf d = d.worlds := by
        unfold worldsOf
        rw [if_neg hzero]
      rw [hwof] at hw
      exact (List.getElem?_eq_some.mp hw).1
    rw [if_neg hzero] at hout
    refine ⟨_, hout, ?_, rfl, by simp⟩
    unfold activeLevels worldsOf
    rw [if_neg (show ¬ _ = 0 by simpa using hzero)]
    rw [List.getElem?_set]
    rw [if_pos rfl, if_pos (by simpa using hlt)]
    exact hfst

/-- C4 witness: the concrete two-layer document, spawned, carries exactly
the sorted transformed level list. -/
theorem spawn_mutates_document_witness :
    ∃ d1, (spawnOut c4State).1.data = some d1 ∧
      activeLevels d1 c4State.worldIndex =
        (sortLevels (synthWorld c4Doc).levels).map spawnLevelTransform ∧
      d1.tilesets = c4Doc.tilesets ∧
      d1.worlds.length = c4Doc.worlds.length :=
  spawn_mutates_document c4State c4Doc (synthWorld c4Doc) rfl (by decide)

/-! ### C7 / C10: linear layout accumulation -/

theorem linearSpanX_nodup (offset : Int) :
    ∀ (ls : List Level) (i : Nat) (hi : i < ls.length),
      (ls.map Level.iid).Nodup →
      linearSpanX offset (ls[i]).iid ls =
        ((ls.take i).map (fun l => l.pxWid + offset)).sum := by
  intro ls
  induction ls with
  | nil =>
      intro i hi
      simp at hi
  | cons l rest ih =>
      intro i hi hnd
      cases i with
      | zero =>
          simp only [List.getElem_cons_zero, linearSpanX, if_pos rfl]
          simp
      | succ i =>
          have hi2 : i < rest.length := by
            simp only [List.length_cons] at hi
            omega
          have hcons : (∀ x ∈ rest, ¬ x.iid = l.iid) ∧ (List.map Level.iid rest).Nodup := by
            simpa using hnd
          have hmem : rest[i] ∈ rest := List.getElem_mem hi2
          have hne : l.iid ≠ (rest[i]).iid :=
            fun hcontra => hcons.1 (rest[i]) hmem hcontra.symm
          simp only [List.getElem_cons_succ, linearSpanX, if_neg hne]
          rw [ih i hi2 hcons.2]
          simp only [List.take_succ_cons, List.map_cons, List.sum_cons]

theorem linearSpanY_nodup (offset : Int) :
    ∀ (ls : List Level) (i : Nat) (hi : i < ls.length),
      (ls.map Level.iid).Nodup →
      linearSpanY offset (ls[i]).iid ls =
        ((ls.take i).map (fun l => l.pxHei + offset)).sum := by
  intro ls
  induction ls with
  | nil =>
      intro i hi
      simp at hi
  | cons l rest ih =>
      intro i hi hnd
      cases i with
      | zero =>
          simp only [List.getElem_cons_zero, linearSpanY, if_pos rfl]
          simp
      | succ i =>
          have hi2 : i < rest.length := by
            simp only [List.length_cons] at hi
            omega
          have hcons : (∀ x ∈ rest, ¬ x.iid = l.iid) ∧ (List.map Level.iid rest).Nodup := by
            simpa using hnd
          have hmem : rest[i] ∈ rest := List.getElem_mem hi2
          have hne : l.iid ≠ (rest[i]).iid :=
            fun hcontra => hcons.1 (rest[i]) hmem hcontra.symm
          simp only [List.getElem_cons_succ, linearSpanY, if_neg hne]
          rw [ih i hi2 hcons.2]
          simp only [List.take_succ_cons, List.map_cons, List.sum_cons]

theorem sum_take_succ_level (f : Level → Int) (ls : List Level) (i : Nat)
    (hi : i < ls.length) :
    ((ls.take (i + 1)).map f).sum = ((ls.take i).map f).sum + f (ls[i]) := by
  rw [List.map_take, List.map_take, List.take_succ, List.getElem?_map,
    List.getElem?_eq_getElem hi]
  simp

theorem entityEvents_flags (regs : List (String × Bool)) (levelPos : Vec2)
    (ents : List EntityInstance) :
    ∀ (fields : List FieldInstance) (pp : List (String × LDTKEntityV)),
    ∀ e ∈ (loadLayerEntities regs levelPos ents fields pp).2.2,
      Event.isPost e = false ∧ Event.rectPos e = none := by
  induction ents with
  | nil =>
      intro fields pp e he
      simp [loadLayerEntities] at he
  | cons ent rest ih =>
      intro fields pp e he
      simp only [loadLayerEntities, List.mem_append] at he
      rcases he with he | he
      · simp only [processEntity] at he
        split at he <;> simp at he <;> subst he <;> exact ⟨rfl, rfl⟩
      · exact ih _ _ e he

theorem intGridEvents_flags (n : Nat) (layer : LayerInstance) (levelPos : Vec2) :
    ∀ (csv : List Int) (p0 : Nat), ∀ e ∈ intGridEvents n layer levelPos csv p0,
      Event.isPost e = false ∧ Event.rectPos e = none ∧
        (∀ regs2, postRegIid regs2 e = none) ∧ stripFields e = e := by
  intro csv
  induction csv with
  | nil =>
      intro p0 e he
      simp [intGridEvents] at he
  | cons v rest ih =>
      intro p0 e he
      simp only [intGridEvents, List.mem_append] at he
      rcases he with he | he
      · obtain ⟨a, -, rfl⟩ := List.mem_map.mp he
        exact ⟨rfl, rfl, fun _ => rfl, rfl⟩
      · exact ih _ e he

theorem tileEvents_flags (assets : AssetStore) (path : String) (layer : LayerInstance)
    (levelPos : Vec2) :
    ∀ (tiles : List TileInstance), ∀ e ∈ tileEvents assets path layer levelPos tiles,
      Event.isPost e = false ∧ Event.rectPos e = none ∧
        (∀ regs2, postRegIid regs2 e = none) ∧ stripFields e = e := by
  intro tiles
  induction tiles with
  | nil =>
      intro e he
      simp [tileEvents] at he
  | cons t rest ih =>
      intro e he
      simp only [tileEvents] at he
      split at he
      · simp at he
        subst he
        exact ⟨rfl, rfl, fun _ => rfl, rfl⟩
      · rcases List.mem_cons.mp he with he0 | he
        · subst he0
          exact ⟨rfl, rfl, fun _ => rfl, rfl⟩
        · exact ih e he

theorem loadTiles_flags (assets : AssetStore) (layer : LayerInstance) (levelPos : Vec2) :
    ∀ e ∈ loadTiles assets layer levelPos,
      Event.isPost e = false ∧ Event.rectPos e = none ∧
        (∀ regs2, postRegIid regs2 e = none) ∧ stripFields e = e := by
  intro e he
  simp only [loadTiles] at he
  split at he
  · simp at he
    subst he
    exact ⟨rfl, rfl, fun _ => rfl, rfl⟩
  · split at he
    · exact tileEvents_flags _ _ _ _ _ e he
    · simp at he
      subst he
      exact ⟨rfl, rfl, fun _ => rfl, rfl⟩

theorem processLayer_flags (ctx : SpawnCtx) (levelPos : Vec2) (layer : LayerInstance)
    (fields : List FieldInstance) (pp : List (String × LDTKEntityV)) :
    ∀ e ∈ (processLayer ctx levelPos layer fields pp).2.2,
      Event.isPost e = false ∧ Event.rectPos e = none := by
  intro e he
  obtain ⟨ident, ty, tsp, gs, cw, csv, ents, gt, alt⟩ := layer
  cases ty with
  | Entities => exact entityEvents_flags _ _ _ _ _ e he
  | IntGrid =>
      obtain ⟨h1, h2, -⟩ := intGridEvents_flags _ _ _ _ _ e he
      exact ⟨h1, h2⟩
  | Tiles =>
      obtain ⟨h1, h2, -⟩ := loadTiles_flags _ _ _ e he
      exact ⟨h1, h2⟩
  | AutoLayer =>
      obtain ⟨h1, h2, -⟩ := loadTiles_flags _ _ _ e he
      exact ⟨h1, h2⟩

theorem processLayers_flags (ctx : SpawnCtx) (levelPos : Vec2)
    (layers : List LayerInstance) :
    ∀ (fields : List FieldInstance) (pp : List (String × LDTKEntityV)),
    ∀ e ∈ (processLayers ctx levelPos layers fields pp).2.2,
      Event.isPost e = false ∧ Event.rectPos e = none := by
  induction layers with
  | nil =>
      intro fields pp e he
      simp [processLayers] at he
  | cons l rest ih =>
      intro fields pp e he
      simp only [processLayers, List.mem_append] at he
      rcases he with he | he
      · exact processLayer_flags _ _ _ _ _ e he
      · exact ih _ _ e he

theorem bgEvents_isPost (rootUrl : String) (levelPos : Vec2) (level : Level) :
    ∀ e ∈ bgEvents rootUrl levelPos level, Event.isPost e = false := by
  intro e he
  unfold bgEvents at he
  rcases List.mem_cons.mp he with he0 | he
  · subst he0
    rfl
  · split at he
    · simp at he
      subst he
      rfl
    · simp at he

theorem bgEvents_rectPos (rootUrl : String) (levelPos : Vec2) (level : Level) :
    (bgEvents rootUrl levelPos level).filterMap Event.rectPos = [levelPos] := by
  unfold bgEvents
  cases hbg : level.bgRelPath <;> simp [List.filterMap_cons, Event.rectPos]

theorem processLevel_rectPos (ctx : SpawnCtx) (allLevels : List Level)
    (pp : List (String × LDTKEntityV)) (level : Level) :
    ((processLevel ctx allLevels pp level).2.2).filterMap Event.rectPos =
      [levelPosFor ctx.layout ctx.offset allLevels level] := by
  simp only [processLevel]
  rw [List.filterMap_append, bgEvents_rectPos]
  rw [List.filterMap_eq_nil_iff.mpr (fun e he => (processLayers_flags _ _ _ _ _ e he).2)]
  simp

theorem processLevels_rectPos (ctx : SpawnCtx) (allLevels : List Level)
    (lvs : List Level) :
    ∀ (pp : List (String × LDTKEntityV)),
    ((processLevels ctx allLevels lvs pp).2.2).filterMap Event.rectPos =
      lvs.map (levelPosFor ctx.layout ctx.offset allLevels) := by
  induction lvs with
  | nil =>
      intro pp
      simp [processLevels]
  | cons lv rest ih =>
      intro pp
      simp only [processLevels]
      rw [List.filterMap_append, processLevel_rectPos, ih]
      simp

/-- C7: under the linear-horizontal world layout, the spawn pass registers
one background rectangle per level of the depth-sorted order, and the i-th
one sits at x = sum over the preceding sorted levels of (pixel width +
configured offset), y = 0 — position accumulates from (0,0). Stated for
worlds whose level iids are pairwise distinct (LDTK instance ids are
unique), since the accumulation loop stops at the first iid match. -/
theorem spawn_linear_horizontal_positions (s : ProjectState) (d : LDTKJSONRoot)
    (w : World) (h : s.data = some d) (hw : (worldsOf d)[s.worldIndex]? = some w)
    (hlay : w.worldLayout = WorldLayout.LinearHorizontal)
    (hnd : ((sortLevels w.levels).map Level.iid).Nodup) :
    ((spawnOut s).2.filterMap Event.rectPos).length = (sortLevels w.levels).length ∧
    (∀ (i : Nat), i < (sortLevels w.levels).length →
      ((spawnOut s).2.filterMap Event.rectPos)[i]? =
        some ⟨(((sortLevels w.levels).take i).map
          (fun l => l.pxWid + s.levelOffset)).sum, 0⟩) := by
  have heq := spawn_eq s d w h hw
  have hout : (spawnOut s).2 =
      (processLevels (spawnCtxOf s w) (sortLevels w.levels)
        (sortLevels w.levels) s.postProcessEntities).2.2 ++
      ((processLevels (spawnCtxOf s w) (sortLevels w.levels)
        (sortLevels w.levels) s.postProcessEntities).2.1).map
          (fun kv => Event.postInit kv.2) := by
    unfold spawnOut
    rw [heq]
  have hpost : (((processLevels (spawnCtxOf s w) (sortLevels w.levels)
      (sortLevels w.levels) s.postProcessEntities).2.1).map
        (fun kv => Event.postInit kv.2)).filterMap Event.rectPos = [] := by
    rw [List.filterMap_eq_nil_iff]
    intro e he
    obtain ⟨kv, -, rfl⟩ := List.mem_map.mp he
    rfl
  have hrects : (spawnOut s).2.filterMap Event.rectPos =
      (sortLevels w.levels).map
        (levelPosFor (spawnCtxOf s w).layout (spawnCtxOf s w).offset (sortLevels w.levels)) := by
    rw [hout, List.filterMap_append, hpost, List.append_nil, processLevels_rectPos]
  rw [hrects]
  constructor
  · simp
  · intro i hi
    rw [List.getElem?_map, List.getElem?_eq_getElem hi]
    simp only [Option.map]
    have hctx : (spawnCtxOf s w).layout = WorldLayout.LinearHorizontal := hlay
    rw [hctx]
    simp only [levelPosFor]
    rw [show (spawnCtxOf s w).offset = s.levelOffset from rfl]
    rw [linearSpanX_nodup s.levelOffset (sortLevels w.levels) i hi hnd]

/-- C7 witness: three levels of widths 100, 150, 200 with offset 10 get
x positions 0, 110, 270. -/
theorem spawn_linear_horizontal_positions_witness :
    ((spawnOut c7State).2.filterMap Event.rectPos)[0]? = some ⟨0, 0⟩ ∧
    ((spawnOut c7State).2.filterMap Event.rectPos)[1]? = some ⟨110, 0⟩ ∧
    ((spawnOut c7State).2.filterMap Event.rectPos)[2]? = some ⟨270, 0⟩ := by
  obtain ⟨hlen, hidx⟩ := spawn_linear_horizontal_positions c7State c7Doc
    (synthWorld c7Doc) rfl (by decide) (by decide) (by decide)
  refine ⟨?_, ?_, ?_⟩
  · rw [hidx 0 (by decide)]
    decide
  · rw [hidx 1 (by decide)]
    decide
  · rw [hidx 2 (by decide)]
    decide

/-- C10: setting options.levelOffset to 0 leaves the default offset 48 in
effect (the option is tested for truthiness, not presence), and under a
linear-horizontal or linear-vertical accumulation with that configuration
every consecutive pair of distinct-iid levels is separated by a 48-pixel
gap: position(i+1) = position(i) + extent(i) + 48. -/
theorem levelOffset_zero_keeps_default (opts : LDTKOptions)
    (hoff : opts.levelOffset = some 0) :
    (mkLDTKProject (some opts)).levelOffset = 48 ∧
    (∀ (ls : List Level) (i : Nat) (hi : i + 1 < ls.length),
      (ls.map Level.iid).Nodup →
      linearSpanX (mkLDTKProject (some opts)).levelOffset (ls[i + 1]).iid ls =
        linearSpanX (mkLDTKProject (some opts)).levelOffset (ls[i]).iid ls +
          (ls[i]).pxWid + 48 ∧
      linearSpanY (mkLDTKProject (some opts)).levelOffset (ls[i + 1]).iid ls =
        linearSpanY (mkLDTKProject (some opts)).levelOffset (ls[i]).iid ls +
          (ls[i]).pxHei + 48) := by
  have h48 : (mkLDTKProject (some opts)).levelOffset = 48 := by
    simp [mkLDTKProject, hoff]
  refine ⟨h48, ?_⟩
  intro ls i hi hnd
  have hi0 : i < ls.length := by omega
  rw [h48]
  constructor
  · rw [linearSpanX_nodup 48 ls (i + 1) hi hnd, linearSpanX_nodup 48 ls i hi0 hnd,
      sum_take_succ_level (fun l => l.pxWid + 48) ls i hi0]
    ring
  · rw [linearSpanY_nodup 48 ls (i + 1) hi hnd, linearSpanY_nodup 48 ls i hi0 hnd,
      sum_take_succ_level (fun l => l.pxHei + 48) ls i hi0]
    ring

/-- C10 witness: with levelOffset explicitly 0, the default 48 applies and
the second of two levels (widths 100, heights 90) sits 100+48 past the
first horizontally and 90+48 past it vertically. -/
theorem levelOffset_zero_keeps_default_witness :
    (mkLDTKProject (some c10Opts)).levelOffset = 48 ∧
    linearSpanX (mkLDTKProject (some c10Opts)).levelOffset
        (c10Levels.get ⟨1, by decide⟩).iid c10Levels =
      linearSpanX (mkLDTKProject (some c10Opts)).levelOffset
        (c10Levels.get ⟨0, by decide⟩).iid c10Levels +
        (c10Levels.get ⟨0, by decide⟩).pxWid + 48 ∧
    linearSpanY (mkLDTKProject (some c10Opts)).levelOffset
        (c10Levels.get ⟨1, by decide⟩).iid c10Levels =
      linearSpanY (mkLDTKProject (some c10Opts)).levelOffset
        (c10Levels.get ⟨0, by decide⟩).iid c10Levels +
        (c10Levels.get ⟨0, by decide⟩).pxHei + 48 := by
  obtain ⟨h1, h2⟩ := levelOffset_zero_keeps_default c10Opts rfl
  obtain ⟨hx, hy⟩ := h2 c10Levels 0 (by decide) (by decide)
  exact ⟨h1, hx, hy⟩

/-! ### C6: deferred post-init ordering -/

theorem subperm_append_both {α : Type} {l1 l2 r1 r2 : List α}
    (h1 : l1.Subperm l2) (h2 : r1.Subperm r2) : (l1 ++ r1).Subperm (l2 ++ r2) := by
  obtain ⟨a, hap, has⟩ := List.subperm_iff.mp h1
  obtain ⟨b, hbp, hbs⟩ := List.subperm_iff.mp h2
  exact List.subperm_iff.mpr ⟨a ++ b, hap.append hbp, has.append hbs⟩

theorem flatten_map_sublist {α β : Type} (L : List α) (f g : α → List β)
    (h : ∀ x ∈ L, (f x).Sublist (g x)) :
    ((L.map f).flatten).Sublist ((L.map g).flatten) := by
  induction L with
  | nil => simp
  | cons a rest ih =>
      simp only [List.map_cons, List.flatten_cons]
      exact (h a (List.mem_cons_self a rest)).append
        (ih (fun x hx => h x (List.mem_cons_of_mem a hx)))

theorem flatten_map_subperm {α β : Type} (L : List α) (f g : α → List β)
    (h : ∀ x ∈ L, (f x).Subperm (g x)) :
    ((L.map f).flatten).Subperm ((L.map g).flatten) := by
  induction L with
  | nil => simp
  | cons a rest ih =>
      simp only [List.map_cons, List.flatten_cons]
      exact subperm_append_both (h a (List.mem_cons_self a rest))
        (ih (fun x hx => h x (List.mem_cons_of_mem a hx)))

theorem flatten_reverse_perm {α : Type} (L : List (List α)) :
    (L.reverse.flatten).Perm L.flatten :=
  (List.reverse_perm L).flatten

theorem strippedAdds_ids_sublist (regs : List (String × Bool)) (levelPos : Vec2)
    (ents : List EntityInstance) :
    ((strippedAdds regs levelPos ents).map (fun e => e.id)).Sublist
      (ents.map EntityInstance.iid) := by
  induction ents with
  | nil => simp [strippedAdds]
  | cons ent rest ih =>
      by_cases hc : recordGet regs ent.identifier = some true
      · simp only [strippedAdds, List.filterMap_cons, hc, if_pos, List.map_cons]
        exact List.Sublist.cons₂ _ ih
      · simp only [strippedAdds, List.filterMap_cons, if_neg hc, List.map_cons]
        exact List.Sublist.cons _ ih

theorem layerWalkIids_sublist (ly : LayerInstance) :
    (layerWalkIids ly).Sublist (ly.entityInstances.map EntityInstance.iid) := by
  unfold layerWalkIids
  split
  · exact List.Sublist.refl _
  · exact List.nil_sublist _

theorem layerAdds_ids_sublist (regs : List (String × Bool)) (levelPos : Vec2)
    (ly : LayerInstance) :
    ((layerAdds regs levelPos ly).map (fun e => e.id)).Sublist (layerWalkIids ly) := by
  unfold layerAdds layerWalkIids
  split
  · exact strippedAdds_ids_sublist regs levelPos ly.entityInstances
  · simp

theorem levelAdds_ids_sublist (ctx : SpawnCtx) (allLevels : List Level) (lv : Level) :
    ((levelAdds ctx allLevels lv).map (fun e => e.id)).Sublist (levelWalkIids lv) := by
  unfold levelAdds levelWalkIids
  rw [List.map_flatten, List.map_map]
  exact flatten_map_sublist _ _ _ (fun ly _ => layerAdds_ids_sublist _ _ ly)

theorem levelsAdds_ids_sublist (ctx : SpawnCtx) (allLevels : List Level)
    (lvs : List Level) :
    ((levelsAdds ctx allLevels lvs).map (fun e => e.id)).Sublist (walkIids lvs) := by
  unfold levelsAdds walkIids
  rw [List.map_flatten, List.map_map]
  exact flatten_map_sublist _ _ _ (fun lv _ => levelAdds_ids_sublist _ _ lv)

theorem ppStrip_keys (pp : List (String × LDTKEntityV)) :
    (ppStrip pp).map Prod.fst = pp.map Prod.fst := by
  unfold ppStrip
  rw [List.map_map]
  rfl

theorem loadLayerEntities_pp (regs : List (String × Bool)) (levelPos : Vec2)
    (ents : List EntityInstance) :
    ∀ (fields : List FieldInstance) (pp : List (String × LDTKEntityV)),
    (pp.map Prod.fst ++ ents.map EntityInstance.iid).Nodup →
    ppStrip (loadLayerEntities regs levelPos ents fields pp).2.1 =
      ppStrip pp ++ (strippedAdds regs levelPos ents).map (fun e => (e.id, e)) := by
  induction ents with
  | nil =>
      intro fields pp hnd
      simp [loadLayerEntities, strippedAdds]
  | cons ent rest ih =>
      intro fields pp hnd
      have hnd2 : (pp.map Prod.fst ++ (ent.iid :: rest.map EntityInstance.iid)).Nodup := by
        simpa using hnd
      have hndrest : (pp.map Prod.fst ++ rest.map EntityInstance.iid).Nodup :=
        List.Nodup.sublist
          ((List.Sublist.refl (pp.map Prod.fst)).append
            (List.Sublist.cons ent.iid (List.Sublist.refl (rest.map EntityInstance.iid))))
          hnd2
      simp only [loadLayerEntities]
      rcases hreg : recordGet regs ent.identifier with _ | hasPost
      · have hpp1 : (processEntity regs levelPos fields pp ent).2.1 = pp := by
          simp [processEntity, hreg]
        rw [hpp1, ih _ pp hndrest]
        simp [strippedAdds, List.filterMap_cons, hreg]
      · cases hasPost with
        | false =>
            have hpp1 : (processEntity regs levelPos fields pp ent).2.1 = pp := by
              simp [processEntity, hreg]
            rw [hpp1, ih _ pp hndrest]
            simp [strippedAdds, List.filterMap_cons, hreg]
        | true =>
            have hfr : ∀ kv ∈ pp, kv.1 ≠ ent.iid := by
              intro kv hkv hcontra
              have hdisj := (List.nodup_append.mp hnd2).2.2
              exact hdisj (hcontra ▸ List.mem_map_of_mem Prod.fst hkv)
                (List.mem_cons_self ent.iid (rest.map EntityInstance.iid))
            have hpp1 : (processEntity regs levelPos fields pp ent).2.1 =
                pp ++ [(ent.iid,
                  ⟨ent.identifier, Vec2.add ent.px levelPos,
                   ⟨ent.width.getD 0, ent.height.getD 0⟩, fields ++ ent.fieldInstances,
                   buildFields (fields ++ ent.fieldInstances), ent.iid⟩)] := by
              simp only [processEntity, hreg]
              rw [if_pos trivial]
              exact recordSet_fresh _ _ _ hfr
            have hnd3 : ((pp ++ [(ent.iid,
                (⟨ent.identifier, Vec2.add ent.px levelPos,
                 ⟨ent.width.getD 0, ent.height.getD 0⟩, fields ++ ent.fieldInstances,
                 buildFields (fields ++ ent.fieldInstances), ent.iid⟩ : LDTKEntityV))]).map
                  Prod.fst ++ rest.map EntityInstance.iid).Nodup := by
              rw [List.map_append, List.append_assoc]
              simpa using hnd2
            rw [hpp1, ih _ _ hnd3]
            unfold ppStrip
            rw [List.map_append]
            simp only [List.map_cons, List.map_nil]
            rw [List.append_assoc]
            congr 1
            simp only [List.singleton_append]
            have hadds : strippedAdds regs levelPos (ent :: rest) =
                strippedEntityVal levelPos ent :: strippedAdds regs levelPos rest := by
              simp [strippedAdds, List.filterMap_cons, hreg]
            rw [hadds]
            rfl

theorem entityEvents_postRegIid (regs : List (String × Bool)) (levelPos : Vec2)
    (ents : List EntityInstance) :
    ∀ (fields : List FieldInstance) (pp : List (String × LDTKEntityV)),
    ((loadLayerEntities regs levelPos ents fields pp).2.2).filterMap (postRegIid regs) =
      (strippedAdds regs levelPos ents).map (fun e => e.id) := by
  induction ents with
  | nil =>
      intro fields pp
      simp [loadLayerEntities, strippedAdds]
  | cons ent rest ih =>
      intro fields pp
      simp only [loadLayerEntities]
      rw [List.filterMap_append]
      rcases hreg : recordGet regs ent.identifier with _ | hasPost
      · have hev : (processEntity regs levelPos fields pp ent).2.2 =
            [Event.errorLog ("No entity registered for " ++ ent.identifier)] := by
          simp [processEntity, hreg]
        rw [hev, ih]
        simp [postRegIid, strippedAdds, List.filterMap_cons, hreg]
      · have hev : (processEntity regs levelPos fields pp ent).2.2 =
            [Event.initEntity
              ⟨ent.identifier, Vec2.add ent.px levelPos,
               ⟨ent.width.getD 0, ent.height.getD 0⟩, fields ++ ent.fieldInstances,
               buildFields (fields ++ ent.fieldInstances), ent.iid⟩] := by
          simp [processEntity, hreg]
        rw [hev, ih]
        cases hasPost with
        | false =>
            have hpr : postRegIid regs (Event.initEntity
                ⟨ent.identifier, Vec2.add ent.px levelPos,
                 ⟨ent.width.getD 0, ent.height.getD 0⟩, fields ++ ent.fieldInstances,
                 buildFields (fields ++ ent.fieldInstances), ent.iid⟩) = none := by
              simp [postRegIid, hreg]
            rw [List.filterMap_cons, hpr]
            simp [strippedAdds, List.filterMap_cons, hreg]
        | true =>
            have hpr : postRegIid regs (Event.initEntity
                ⟨ent.identifier, Vec2.add ent.px levelPos,
                 ⟨ent.width.getD 0, ent.height.getD 0⟩, fields ++ ent.fieldInstances,
                 buildFields (fields ++ ent.fieldInstances), ent.iid⟩) = some ent.iid := by
              simp [postRegIid, hreg]
            rw [List.filterMap_cons, hpr]
            have hadds : strippedAdds regs levelPos (ent :: rest) =
                strippedEntityVal levelPos ent :: strippedAdds regs levelPos rest := by
              simp [strippedAdds, List.filterMap_cons, hreg]
            rw [hadds]
            simp [List.filterMap_nil]
            rfl

theorem processLayer_pp (ctx : SpawnCtx) (levelPos : Vec2) (layer : LayerInstance) :
    ∀ (fields : List FieldInstance) (pp : List (String × LDTKEntityV)),
    (pp.map Prod.fst ++ layerWalkIids layer).Nodup →
    ppStrip (processLayer ctx levelPos layer fields pp).2.1 =
      ppStrip pp ++ (layerAdds ctx.regs levelPos layer).map (fun e => (e.id, e)) := by
  intro fields pp hnd
  obtain ⟨ident, ty, tsp, gs, cw, csv, ents, gt, alt⟩ := layer
  cases ty with
  | Entities =>
      have hnd2 : (pp.map Prod.fst ++ ents.map EntityInstance.iid).Nodup := by
        simpa [layerWalkIids] using hnd
      have h := loadLayerEntities_pp ctx.regs levelPos ents fields pp hnd2
      simpa [processLayer, layerAdds] using h
  | IntGrid => simp [processLayer, layerAdds]
  | Tiles => simp [processLayer, layerAdds]
  | AutoLayer => simp [processLayer, layerAdds]

theorem processLayer_postRegIid (ctx : SpawnCtx) (levelPos : Vec2) (layer : LayerInstance)
    (fields : List FieldInstance) (pp : List (String × LDTKEntityV)) :
    ((processLayer ctx levelPos layer fields pp).2.2).filterMap (postRegIid ctx.regs) =
      (layerAdds ctx.regs levelPos layer).map (fun e => e.id) := by
  obtain ⟨ident, ty, tsp, gs, cw, csv, ents, gt, alt⟩ := layer
  cases ty with
  | Entities =>
      have h := entityEvents_postRegIid ctx.regs levelPos ents fields pp
      simpa [processLayer, layerAdds] using h
  | IntGrid =>
      rw [show (processLayer ctx levelPos ⟨ident, LayerType.IntGrid, tsp, gs, cw, csv, ents, gt, alt⟩ fields pp).2.2 =
        loadIntGridTiles ctx.numHandlers ⟨ident, LayerType.IntGrid, tsp, gs, cw, csv, ents, gt, alt⟩ levelPos from rfl]
      simp only [loadIntGridTiles]
      rw [List.filterMap_eq_nil_iff.mpr
        (fun e he => (intGridEvents_flags _ _ _ _ _ e he).2.2.1 ctx.regs)]
      simp [layerAdds]
  | Tiles =>
      rw [show (processLayer ctx levelPos ⟨ident, LayerType.Tiles, tsp, gs, cw, csv, ents, gt, alt⟩ fields pp).2.2 =
        loadTiles ctx.assets ⟨ident, LayerType.Tiles, tsp, gs, cw, csv, ents, gt, alt⟩ levelPos from rfl]
      rw [List.filterMap_eq_nil_iff.mpr
        (fun e he => (loadTiles_flags _ _ _ e he).2.2.1 ctx.regs)]
      simp [layerAdds]
  | AutoLayer =>
      rw [show (processLayer ctx levelPos ⟨ident, LayerType.AutoLayer, tsp, gs, cw, csv, ents, gt, alt⟩ fields pp).2.2 =
        loadTiles ctx.assets ⟨ident, LayerType.AutoLayer, tsp, gs, cw, csv, ents, gt, alt⟩ levelPos from rfl]
      rw [List.filterMap_eq_nil_iff.mpr
        (fun e he => (loadTiles_flags _ _ _ e he).2.2.1 ctx.regs)]
      simp [layerAdds]

theorem processLayers_pp (ctx : SpawnCtx) (levelPos : Vec2)
    (layers : List LayerInstance) :
    ∀ (fields : List FieldInstance) (pp : List (String × LDTKEntityV)),
    (pp.map Prod.fst ++ (layers.map layerWalkIids).flatten).Nodup →
    ppStrip (processLayers ctx levelPos layers fields pp).2.1 =
      ppStrip pp ++
        ((layers.map (layerAdds ctx.regs levelPos)).flatten).map (fun e => (e.id, e)) := by
  induction layers with
  | nil =>
      intro fields pp hnd
      simp [processLayers]
  | cons l rest ih =>
      intro fields pp hnd
      have hnd2 : (pp.map Prod.fst ++ (layerWalkIids l ++ (rest.map layerWalkIids).flatten)).Nodup := by
        simpa using hnd
      have hndl : (pp.map Prod.fst ++ layerWalkIids l).Nodup := by
        refine List.Nodup.sublist ?_ hnd2
        exact (List.Sublist.refl _).append (List.sublist_append_left _ _)
      simp only [processLayers]
      have hlayer := processLayer_pp ctx levelPos l fields pp hndl
      have hkeys : ((processLayer ctx levelPos l fields pp).2.1).map Prod.fst =
          pp.map Prod.fst ++ (layerAdds ctx.regs levelPos l).map (fun e => e.id) := by
        have := congrArg (List.map Prod.fst) hlayer
        rw [ppStrip_keys] at this
        rw [this, List.map_append, ppStrip_keys, List.map_map]
        rfl
      have hndnext : (((processLayer ctx levelPos l fields pp).2.1).map Prod.fst ++
          (rest.map layerWalkIids).flatten).Nodup := by
        rw [hkeys, List.append_assoc]
        refine List.Nodup.sublist ?_ hnd2
        refine (List.Sublist.refl _).append ?_
        exact (layerAdds_ids_sublist ctx.regs levelPos l).append (List.Sublist.refl _)
      rw [ih _ _ hndnext, hlayer]
      simp [List.append_assoc]

theorem bgEvents_postRegIid (regs : List (String × Bool)) (rootUrl : String)
    (levelPos : Vec2) (level : Level) :
    (bgEvents rootUrl levelPos level).filterMap (postRegIid regs) = [] := by
  rw [List.filterMap_eq_nil_iff]
  intro e he
  unfold bgEvents at he
  rcases List.mem_cons.mp he with he0 | he
  · subst he0
    rfl
  · split at he
    · simp at he
      subst he
      rfl
    · simp at he

theorem processLayers_postRegIid (ctx : SpawnCtx) (levelPos : Vec2)
    (layers : List LayerInstance) :
    ∀ (fields : List FieldInstance) (pp : List (String × LDTKEntityV)),
    ((processLayers ctx levelPos layers fields pp).2.2).filterMap (postRegIid ctx.regs) =
      ((layers.map (layerAdds ctx.regs levelPos)).flatten).map (fun e => e.id) := by
  induction layers with
  | nil =>
      intro fields pp
      simp [processLayers]
  | cons l rest ih =>
      intro fields pp
      simp only [processLayers]
      rw [List.filterMap_append, processLayer_postRegIid, ih]
      simp

theorem processLevel_pp (ctx : SpawnCtx) (allLevels : List Level) (lv : Level) :
    ∀ (pp : List (String × LDTKEntityV)),
    (pp.map Prod.fst ++ levelWalkIids lv).Nodup →
    ppStrip (processLevel ctx allLevels pp lv).2.1 =
      ppStrip pp ++ (levelAdds ctx allLevels lv).map (fun e => (e.id, e)) := by
  intro pp hnd
  simp only [processLevel]
  exact processLayers_pp ctx _ _ _ pp hnd

theorem processLevel_postRegIid (ctx : SpawnCtx) (allLevels : List Level)
    (pp : List (String × LDTKEntityV)) (lv : Level) :
    ((processLevel ctx allLevels pp lv).2.2).filterMap (postRegIid ctx.regs) =
      (levelAdds ctx allLevels lv).map (fun e => e.id) := by
  simp only [processLevel]
  rw [List.filterMap_append, bgEvents_postRegIid, processLayers_postRegIid]
  simp [levelAdds]

theorem processLevels_pp (ctx : SpawnCtx) (allLevels : List Level)
    (lvs : List Level) :
    ∀ (pp : List (String × LDTKEntityV)),
    (pp.map Prod.fst ++ walkIids lvs).Nodup →
    ppStrip (processLevels ctx allLevels lvs pp).2.1 =
      ppStrip pp ++ (levelsAdds ctx allLevels lvs).map (fun e => (e.id, e)) := by
  induction lvs with
  | nil =>
      intro pp hnd
      simp [processLevels, levelsAdds]
  | cons lv rest ih =>
      intro pp hnd
      have hnd2 : (pp.map Prod.fst ++ (levelWalkIids lv ++ walkIids rest)).Nodup := by
        simpa [walkIids] using hnd
      have hndl : (pp.map Prod.fst ++ levelWalkIids lv).Nodup :=
        List.Nodup.sublist
          ((List.Sublist.refl _).append (List.sublist_append_left _ _)) hnd2
      simp only [processLevels]
      have hlevel := processLevel_pp ctx allLevels lv pp hndl
      have hkeys : ((processLevel ctx allLevels pp lv).2.1).map Prod.fst =
          pp.map Prod.fst ++ (levelAdds ctx allLevels lv).map (fun e => e.id) := by
        have hc := congrArg (List.map Prod.fst) hlevel
        rw [ppStrip_keys] at hc
        rw [hc, List.map_append, ppStrip_keys, List.map_map]
        rfl
      have hndnext : (((processLevel ctx allLevels pp lv).2.1).map Prod.fst ++
          walkIids rest).Nodup := by
        rw [hkeys, List.append_assoc]
        refine List.Nodup.sublist ?_ hnd2
        exact (List.Sublist.refl _).append
          ((levelAdds_ids_sublist ctx allLevels lv).append (List.Sublist.refl _))
      rw [ih _ hndnext, hlevel]
      simp [levelsAdds, walkIids, List.append_assoc]

theorem processLevels_postRegIid (ctx : SpawnCtx) (allLevels : List Level)
    (lvs : List Level) :
    ∀ (pp : List (String × LDTKEntityV)),
    ((processLevels ctx allLevels lvs pp).2.2).filterMap (postRegIid ctx.regs) =
      (levelsAdds ctx allLevels lvs).map (fun e => e.id) := by
  induction lvs with
  | nil =>
      intro pp
      simp [processLevels, levelsAdds]
  | cons lv rest ih =>
      intro pp
      simp only [processLevels]
      rw [List.filterMap_append, processLevel_postRegIid, ih]
      simp [levelsAdds]

theorem processLevel_isPost (ctx : SpawnCtx) (allLevels : List Level)
    (pp : List (String × LDTKEntityV)) (lv : Level) :
    ∀ e ∈ (processLevel ctx allLevels pp lv).2.2, Event.isPost e = false := by
  intro e he
  simp only [processLevel] at he
  rcases List.mem_append.mp he with he | he
  · exact bgEvents_isPost _ _ _ e he
  · exact (processLayers_flags _ _ _ _ _ e he).1

theorem processLevels_isPost (ctx : SpawnCtx) (allLevels : List Level)
    (lvs : List Level) :
    ∀ (pp : List (String × LDTKEntityV)),
    ∀ e ∈ (processLevels ctx allLevels lvs pp).2.2, Event.isPost e = false := by
  induction lvs with
  | nil =>
      intro pp e he
      simp [processLevels] at he
  | cons lv rest ih =>
      intro pp e he
      simp only [processLevels, List.mem_append] at he
      rcases he with he | he
      · exact processLevel_isPost _ _ _ _ e he
      · exact ih _ e he

theorem levelWalkIids_subperm (lv : Level) :
    (levelWalkIids lv).Subperm (levelDocIids lv) := by
  unfold levelWalkIids levelDocIids
  refine List.subperm_iff.mpr
    ⟨((lv.layerInstances.getD []).reverse.map (fun ly =>
        ly.entityInstances.map EntityInstance.iid)).flatten, ?_, ?_⟩
  · rw [List.map_reverse]
    exact (List.reverse_perm _).flatten
  · exact flatten_map_sublist _ _ _ (fun ly _ => layerWalkIids_sublist ly)

theorem walkIids_subperm_world (w : World) :
    (walkIids (sortLevels w.levels)).Subperm (worldEntityIids w) := by
  have hperm : (walkIids (sortLevels w.levels)).Perm
      ((w.levels.map levelWalkIids).flatten) := by
    unfold walkIids
    exact ((List.perm_insertionSort levelLE w.levels).map levelWalkIids).flatten
  refine (hperm.subperm).trans ?_
  unfold worldEntityIids
  exact flatten_map_subperm _ _ _ (fun lv _ => levelWalkIids_subperm lv)

theorem walkIids_nodup (w : World) (hnd : (worldEntityIids w).Nodup) :
    (walkIids (sortLevels w.levels)).Nodup := by
  obtain ⟨l, hlp, hls⟩ := List.subperm_iff.mp (walkIids_subperm_world w)
  exact List.Nodup.sublist hls (hlp.nodup_iff.mpr hnd)

theorem ppStrip_map_ids (m : List (String × LDTKEntityV)) :
    (ppStrip m).map (fun kv => kv.2.id) = m.map (fun kv => kv.2.id) := by
  unfold ppStrip
  rw [List.map_map]
  rfl

/-- C6: in every spawn pass, the deferred post-init dispatches form a
suffix of the event trace strictly after the whole walk (so after every
init dispatch of every level and layer), they fire in the order their
owning entities were first encountered during the walk — the post-init
instance ids equal, in order, the ids of the walked init dispatches whose
entity name is registered with a post-init callback — and the deferred
table is cleared, so a second spawn() starts with an empty table. Stated
for worlds whose entity instance ids are pairwise distinct (LDTK instance
ids are unique). -/
theorem spawn_postInit_spec (s : ProjectState) (d : LDTKJSONRoot) (w : World)
    (h : s.data = some d) (hw : (worldsOf d)[s.worldIndex]? = some w)
    (hpp : s.postProcessEntities = [])
    (hnd : (worldEntityIids w).Nodup) :
    ∃ walk posts, (spawnOut s).2 = walk ++ posts ∧
      (∀ e ∈ walk, Event.isPost e = false) ∧
      (∀ e ∈ posts, Event.isPost e = true) ∧
      posts.filterMap Event.postIid = walk.filterMap (postRegIid s.entities) ∧
      (spawnOut s).1.postProcessEntities = [] := by
  have heq := spawn_eq s d w h hw
  refine ⟨(processLevels (spawnCtxOf s w) (sortLevels w.levels)
      (sortLevels w.levels) s.postProcessEntities).2.2,
    ((processLevels (spawnCtxOf s w) (sortLevels w.levels)
      (sortLevels w.levels) s.postProcessEntities).2.1).map
        (fun kv => Event.postInit kv.2), ?_, ?_, ?_, ?_, ?_⟩
  · unfold spawnOut
    rw [heq]
  · exact processLevels_isPost _ _ _ _
  · intro e he
    obtain ⟨kv, -, rfl⟩ := List.mem_map.mp he
    rfl
  · rw [hpp]
    rw [List.filterMap_map]
    rw [show (Event.postIid ∘ fun kv : String × LDTKEntityV => Event.postInit kv.2) =
      (some ∘ fun kv : String × LDTKEntityV => kv.2.id) from rfl]
    rw [List.filterMap_eq_map]
    have hfresh : ((([] : List (String × LDTKEntityV)).map Prod.fst) ++
        walkIids (sortLevels w.levels)).Nodup := by
      simpa using walkIids_nodup w hnd
    have hppc := processLevels_pp (spawnCtxOf s w) (sortLevels w.levels)
      (sortLevels w.levels) [] hfresh
    have hid : ((processLevels (spawnCtxOf s w) (sortLevels w.levels)
        (sortLevels w.levels) []).2.1).map (fun kv => kv.2.id) =
        (levelsAdds (spawnCtxOf s w) (sortLevels w.levels)
          (sortLevels w.levels)).map (fun e => e.id) := by
      rw [← ppStrip_map_ids, hppc]
      simp only [ppStrip, List.map_nil, List.nil_append]
      rw [List.map_map]
      rfl
    have hwalk := processLevels_postRegIid (spawnCtxOf s w) (sortLevels w.levels)
      (sortLevels w.levels) []
    exact hid.trans hwalk.symm
  · unfold spawnOut
    rw [heq]

/-- C6 witness: a concrete spawn with a post-init Player (p1), a
non-post-init Coin and an unregistered Ghost: the trace splits into a
post-free walk followed by the post-init dispatches, whose id list [p1]
matches the walked post-init-registered inits, and the table ends empty. -/
theorem spawn_postInit_spec_witness :
    ∃ walk posts, (spawnOut c6State).2 = walk ++ posts ∧
      (∀ e ∈ walk, Event.isPost e = false) ∧
      (∀ e ∈ posts, Event.isPost e = true) ∧
      posts.filterMap Event.postIid = walk.filterMap (postRegIid c6State.entities) ∧
      (spawnOut c6State).1.postProcessEntities = [] :=
  spawn_postInit_spec c6State c6Doc (synthWorld c6Doc) rfl (by decide) rfl (by decide)

/-! ### C9: re-spawn stability -/

theorem entityEvents_strip (regs : List (String × Bool)) (levelPos : Vec2)
    (ents : List EntityInstance) :
    ∀ (fields : List FieldInstance) (pp : List (String × LDTKEntityV)),
    ((loadLayerEntities regs levelPos ents fields pp).2.2).map stripFields =
      strippedEntityEvents regs levelPos ents := by
  induction ents with
  | nil =>
      intro fields pp
      simp [loadLayerEntities, strippedEntityEvents]
  | cons ent rest ih =>
      intro fields pp
      simp only [loadLayerEntities]
      rw [List.map_append, ih]
      rcases hreg : recordGet regs ent.identifier with _ | hasPost
      · have hev : (processEntity regs levelPos fields pp ent).2.2 =
            [Event.errorLog ("No entity registered for " ++ ent.identifier)] := by
          simp [processEntity, hreg]
        rw [hev]
        simp only [strippedEntityEvents, List.map_cons, List.map_nil]
        rw [show (match recordGet regs ent.identifier with
          | some _ => Event.initEntity (strippedEntityVal levelPos ent)
          | none => Event.errorLog ("No entity registered for " ++ ent.identifier)) =
          Event.errorLog ("No entity registered for " ++ ent.identifier) by rw [hreg]]
        rfl
      · have hev : (processEntity regs levelPos fields pp ent).2.2 =
            [Event.initEntity
              ⟨ent.identifier, Vec2.add ent.px levelPos,
               ⟨ent.width.getD 0, ent.height.getD 0⟩, fields ++ ent.fieldInstances,
               buildFields (fields ++ ent.fieldInstances), ent.iid⟩] := by
          simp [processEntity, hreg]
        rw [hev]
        simp only [strippedEntityEvents, List.map_cons, List.map_nil]
        rw [show (match recordGet regs ent.identifier with
          | some _ => Event.initEntity (strippedEntityVal levelPos ent)
          | none => Event.errorLog ("No entity registered for " ++ ent.identifier)) =
          Event.initEntity (strippedEntityVal levelPos ent) by rw [hreg]]
        rfl

theorem bgEvents_strip (rootUrl : String) (levelPos : Vec2) (level : Level) :
    (bgEvents rootUrl levelPos level).map stripFields = bgEvents rootUrl levelPos level := by
  cases hbg : level.bgRelPath <;> simp [bgEvents, hbg, stripFields]

theorem processLayer_strip (ctx : SpawnCtx) (levelPos : Vec2) (layer : LayerInstance) :
    ∀ (fields : List FieldInstance) (pp : List (String × LDTKEntityV)),
    ((processLayer ctx levelPos layer fields pp).2.2).map stripFields =
      layerStrippedEvents ctx levelPos layer := by
  intro fields pp
  obtain ⟨ident, ty, tsp, gs, cw, csv, ents, gt, alt⟩ := layer
  cases ty with
  | Entities => exact entityEvents_strip ctx.regs levelPos ents fields pp
  | IntGrid =>
      show (loadIntGridTiles ctx.numHandlers _ levelPos).map stripFields = _
      simp only [loadIntGridTiles]
      rw [List.map_congr_left (fun e he => (intGridEvents_flags _ _ _ _ _ e he).2.2.2)]
      simp [layerStrippedEvents, loadIntGridTiles]
  | Tiles =>
      show (loadTiles ctx.assets _ levelPos).map stripFields = _
      rw [List.map_congr_left (fun e he => (loadTiles_flags _ _ _ e he).2.2.2)]
      simp [layerStrippedEvents]
  | AutoLayer =>
      show (loadTiles ctx.assets _ levelPos).map stripFields = _
      rw [List.map_congr_left (fun e he => (loadTiles_flags _ _ _ e he).2.2.2)]
      simp [layerStrippedEvents]

theorem processLayers_strip (ctx : SpawnCtx) (levelPos : Vec2)
    (layers : List LayerInstance) :
    ∀ (fields : List FieldInstance) (pp : List (String × LDTKEntityV)),
    ((processLayers ctx levelPos layers fields pp).2.2).map stripFields =
      (layers.map (layerStrippedEvents ctx levelPos)).flatten := by
  induction layers with
  | nil =>
      intro fields pp
      simp [processLayers]
  | cons l rest ih =>
      intro fields pp
      simp only [processLayers]
      rw [List.map_append, processLayer_strip, ih]
      simp

theorem processLevel_strip (ctx : SpawnCtx) (allLevels : List Level)
    (pp : List (String × LDTKEntityV)) (lv : Level) :
    ((processLevel ctx allLevels pp lv).2.2).map stripFields =
      levelStrippedEvents ctx allLevels lv := by
  simp only [processLevel]
  rw [List.map_append, bgEvents_strip, processLayers_strip]
  rfl

theorem processLevels_strip (ctx : SpawnCtx) (allLevels : List Level)
    (lvs : List Level) :
    ∀ (pp : List (String × LDTKEntityV)),
    ((processLevels ctx allLevels lvs pp).2.2).map stripFields =
      (lvs.map (levelStrippedEvents ctx allLevels)).flatten := by
  induction lvs with
  | nil =>
      intro pp
      simp [processLevels]
  | cons lv rest ih =>
      intro pp
      simp only [processLevels]
      rw [List.map_append, processLevel_strip, ih]
      simp

theorem linearSpanX_map_transform (offset : Int) (target : String) :
    ∀ (ls : List Level),
    linearSpanX offset target (ls.map spawnLevelTransform) = linearSpanX offset target ls := by
  intro ls
  induction ls with
  | nil => rfl
  | cons l rest ih =>
      simp only [List.map_cons, linearSpanX]
      rw [show (spawnLevelTransform l).iid = l.iid from rfl,
        show (spawnLevelTransform l).pxWid = l.pxWid from rfl, ih]

theorem linearSpanY_map_transform (offset : Int) (target : String) :
    ∀ (ls : List Level),
    linearSpanY offset target (ls.map spawnLevelTransform) = linearSpanY offset target ls := by
  intro ls
  induction ls with
  | nil => rfl
  | cons l rest ih =>
      simp only [List.map_cons, linearSpanY]
      rw [show (spawnLevelTransform l).iid = l.iid from rfl,
        show (spawnLevelTransform l).pxHei = l.pxHei from rfl, ih]

theorem levelPosFor_transform (layout : WorldLayout) (offset : Int)
    (ls : List Level) (lv : Level) :
    levelPosFor layout offset (ls.map spawnLevelTransform) (spawnLevelTransform lv) =
      levelPosFor layout offset ls lv := by
  cases layout with
  | LinearHorizontal =>
      simp only [levelPosFor]
      rw [show (spawnLevelTransform lv).iid = lv.iid from rfl, linearSpanX_map_transform]
  | LinearVertical =>
      simp only [levelPosFor]
      rw [show (spawnLevelTransform lv).iid = lv.iid from rfl, linearSpanY_map_transform]
  | Free => rfl
  | GridVania => rfl

theorem flatten_map_perm {α β : Type} (L : List α) (f g : α → List β)
    (h : ∀ x ∈ L, (f x).Perm (g x)) :
    ((L.map f).flatten).Perm ((L.map g).flatten) := by
  induction L with
  | nil => simp
  | cons a rest ih =>
      simp only [List.map_cons, List.flatten_cons]
      exact (h a (List.mem_cons_self a rest)).append
        (ih (fun x hx => h x (List.mem_cons_of_mem a hx)))

theorem transform_layers_reverse (lv : Level) :
    ((spawnLevelTransform lv).layerInstances.getD []).reverse =
      lv.layerInstances.getD [] := by
  cases hli : lv.layerInstances with
  | none => simp [spawnLevelTransform, hli]
  | some l => simp [spawnLevelTransform, hli]

theorem levelStrippedEvents_perm (ctx : SpawnCtx) (ls : List Level) (lv : Level) :
    (levelStrippedEvents ctx (ls.map spawnLevelTransform) (spawnLevelTransform lv)).Perm
      (levelStrippedEvents ctx ls lv) := by
  unfold levelStrippedEvents
  rw [levelPosFor_transform, transform_layers_reverse]
  rw [show bgEvents ctx.rootUrl (levelPosFor ctx.layout ctx.offset ls lv)
    (spawnLevelTransform lv) = bgEvents ctx.rootUrl
      (levelPosFor ctx.layout ctx.offset ls lv) lv from rfl]
  refine List.Perm.append (List.Perm.refl _) ?_
  have hrev : (lv.layerInstances.getD []) =
      ((lv.layerInstances.getD []).reverse).reverse := by simp
  conv_lhs => rw [hrev]
  rw [List.map_reverse]
  exact flatten_reverse_perm _

theorem levelWalkIids_transform_perm (lv : Level) :
    (levelWalkIids (spawnLevelTransform lv)).Perm (levelWalkIids lv) := by
  unfold levelWalkIids
  rw [transform_layers_reverse]
  have hrev : (lv.layerInstances.getD []) =
      ((lv.layerInstances.getD []).reverse).reverse := by simp
  conv_lhs => rw [hrev]
  rw [List.map_reverse]
  exact flatten_reverse_perm _

theorem walkIids_transform_perm (ls : List Level) :
    (walkIids (ls.map spawnLevelTransform)).Perm (walkIids ls) := by
  unfold walkIids
  rw [List.map_map]
  exact flatten_map_perm _ _ _ (fun lv _ => levelWalkIids_transform_perm lv)

theorem layerAdds_transform_levelPos (regs : List (String × Bool)) (pos : Vec2)
    (ly : LayerInstance) : layerAdds regs pos ly = layerAdds regs pos ly := rfl

theorem levelAdds_perm (ctx : SpawnCtx) (ls : List Level) (lv : Level) :
    (levelAdds ctx (ls.map spawnLevelTransform) (spawnLevelTransform lv)).Perm
      (levelAdds ctx ls lv) := by
  unfold levelAdds
  rw [levelPosFor_transform, transform_layers_reverse]
  have hrev : (lv.layerInstances.getD []) =
      ((lv.layerInstances.getD []).reverse).reverse := by simp
  conv_lhs => rw [hrev]
  rw [List.map_reverse]
  exact flatten_reverse_perm _

theorem levelsAdds_perm (ctx : SpawnCtx) (sorted : List Level) :
    (levelsAdds ctx (sorted.map spawnLevelTransform) (sorted.map spawnLevelTransform)).Perm
      (levelsAdds ctx sorted sorted) := by
  unfold levelsAdds
  rw [List.map_map]
  exact flatten_map_perm _ _ _ (fun lv _ => levelAdds_perm ctx sorted lv)

theorem sortLevels_map_transform (sorted : List Level)
    (hs : List.Sorted levelLE sorted) :
    sortLevels (sorted.map spawnLevelTransform) = sorted.map spawnLevelTransform := by
  apply List.Sorted.insertionSort_eq
  exact List.Pairwise.map spawnLevelTransform (fun a b hab => hab) hs

theorem postEvs_strip (pp : List (String × LDTKEntityV)) :
    (pp.map (fun kv => Event.postInit kv.2)).map stripFields =
      (ppStrip pp).map (fun kv => Event.postInit kv.2) := by
  unfold ppStrip
  rw [List.map_map, List.map_map]
  rfl

theorem spawn_pass_strip (s : ProjectState) (d : LDTKJSONRoot) (w : World)
    (h : s.data = some d) (hw : (worldsOf d)[s.worldIndex]? = some w)
    (hpp : s.postProcessEntities = [])
    (hnd : (walkIids (sortLevels w.levels)).Nodup) :
    ((spawnOut s).2).map stripFields =
      ((sortLevels w.levels).map
        (levelStrippedEvents (spawnCtxOf s w) (sortLevels w.levels))).flatten ++
      (levelsAdds (spawnCtxOf s w) (sortLevels w.levels)
        (sortLevels w.levels)).map (fun e => Event.postInit e) := by
  have heq := spawn_eq s d w h hw
  have htr : (spawnOut s).2 =
      (processLevels (spawnCtxOf s w) (sortLevels w.levels)
        (sortLevels w.levels) s.postProcessEntities).2.2 ++
      ((processLevels (spawnCtxOf s w) (sortLevels w.levels)
        (sortLevels w.levels) s.postProcessEntities).2.1).map
          (fun kv => Event.postInit kv.2) := by
    unfold spawnOut
    rw [heq]
  rw [htr, hpp, List.map_append, processLevels_strip, postEvs_strip]
  have hfresh : ((([] : List (String × LDTKEntityV)).map Prod.fst) ++
      walkIids (sortLevels w.levels)).Nodup := by simpa using hnd
  rw [processLevels_pp (spawnCtxOf s w) (sortLevels w.levels)
    (sortLevels w.levels) [] hfresh]
  simp only [ppStrip, List.map_nil, List.nil_append]
  rw [List.map_map]
  rfl

theorem spawnOut_fst_eq (s : ProjectState) (d : LDTKJSONRoot) (w : World)
    (h : s.data = some d) (hw : (worldsOf d)[s.worldIndex]? = some w) :
    (spawnOut s).1 = { s with
      data := some (if d.worlds.length = 0
        then { d with levels := (sortLevels w.levels).map spawnLevelTransform }
        else { d with worlds := d.worlds.set s.worldIndex ({ w with levels := (sortLevels w.levels).map spawnLevelTransform }) })
      , postProcessEntities := [] } := by
  have heq := spawn_eq s d w h hw
  have hfst := processLevels_fst (spawnCtxOf s w) (sortLevels w.levels)
    (sortLevels w.levels) s.postProcessEntities
  unfold spawnOut
  rw [heq, hfst]

theorem spawn_next (s : ProjectState) (d : LDTKJSONRoot) (w : World)
    (h : s.data = some d) (hw : (worldsOf d)[s.worldIndex]? = some w) :
    ∃ d1 w1, (spawnOut s).1.data = some d1 ∧
      (worldsOf d1)[(spawnOut s).1.worldIndex]? = some w1 ∧
      w1.levels = (sortLevels w.levels).map spawnLevelTransform ∧
      spawnCtxOf ((spawnOut s).1) w1 = spawnCtxOf s w ∧
      (spawnOut s).1.postProcessEntities = [] := by
  have hs1 := spawnOut_fst_eq s d w h hw
  have hwi : (spawnOut s).1.worldIndex = s.worldIndex := by rw [hs1]
  have hppo : (spawnOut s).1.postProcessEntities = [] := by rw [hs1]
  by_cases hzero : d.worlds.length = 0
  · have hwof : worldsOf d = [synthWorld d] := by
      unfold worldsOf
      rw [if_pos hzero]
    have hidx0 : s.worldIndex = 0 := by
      by_contra hne0
      rw [hwof, List.getElem?_eq_none
        (by simpa using Nat.one_le_iff_ne_zero.mpr hne0)] at hw
      cases hw
    have hwsynth : w = synthWorld d := by
      rw [hwof, hidx0] at hw
      simpa using hw.symm
    refine ⟨{ d with levels := (sortLevels w.levels).map spawnLevelTransform },
      synthWorld { d with levels := (sortLevels w.levels).map spawnLevelTransform },
      ?_, ?_, rfl, ?_, hppo⟩
    · rw [hs1, if_pos hzero]
    · rw [hwi, hidx0]
      unfold worldsOf
      rw [if_pos (show _ = 0 by exact hzero)]
      rfl
    · rw [hs1, hwsynth]
      rfl
  · have hwofd : worldsOf d = d.worlds := by
      unfold worldsOf
      rw [if_neg hzero]
    have hlt : s.worldIndex < d.worlds.length := by
      rw [hwofd] at hw
      exact (List.getElem?_eq_some.mp hw).1
    refine ⟨{ d with worlds := d.worlds.set s.worldIndex ({ w with levels := (sortLevels w.levels).map spawnLevelTransform }) },
      { w with levels := (sortLevels w.levels).map spawnLevelTransform },
      ?_, ?_, rfl, ?_, hppo⟩
    · rw [hs1, if_neg hzero]
    · rw [hwi]
      unfold worldsOf
      rw [if_neg (show ¬ _ = 0 by simpa using hzero)]
      rw [List.getElem?_set]
      rw [if_pos rfl, if_pos (by simpa using hlt)]
    · rw [hs1]
      rfl

/-- C9: spawning a second time over the same loaded document and the same
registrations yields, up to order, the same placements as the first pass:
with entity field payloads stripped, the second pass's event trace is a
permutation of the first pass's, so every placed entity and IntGrid tile
receives the same computed world position and every drawn tile the same
quad (the per-level event order differs only by the in-place layer
reversal). Stated for a loaded world whose entity instance ids are
pairwise distinct and an empty deferred table. -/
theorem spawn_respawn_stable (s : ProjectState) (d : LDTKJSONRoot) (w : World)
    (h : s.data = some d) (hw : (worldsOf d)[s.worldIndex]? = some w)
    (hpp : s.postProcessEntities = [])
    (hnd : (worldEntityIids w).Nodup) :
    (((spawnOut ((spawnOut s).1)).2).map stripFields).Perm
      (((spawnOut s).2).map stripFields) := by
  have hnd1 : (walkIids (sortLevels w.levels)).Nodup := walkIids_nodup w hnd
  have h1 := spawn_pass_strip s d w h hw hpp hnd1
  obtain ⟨d1, w1, hd1, hw1, hlev, hctx, hpp1⟩ := spawn_next s d w h hw
  have hsorted : List.Sorted levelLE (sortLevels w.levels) :=
    List.sorted_insertionSort levelLE w.levels
  have hsort1 : sortLevels w1.levels =
      (sortLevels w.levels).map spawnLevelTransform := by
    rw [hlev]
    exact sortLevels_map_transform _ hsorted
  have hnd2 : (walkIids (sortLevels w1.levels)).Nodup := by
    rw [hsort1]
    exact ((walkIids_transform_perm (sortLevels w.levels)).nodup_iff).mpr hnd1
  have h2 := spawn_pass_strip ((spawnOut s).1) d1 w1 hd1 hw1 hpp1 hnd2
  rw [h1, h2, hctx, hsort1]
  refine List.Perm.append ?_ ?_
  · rw [List.map_map]
    exact flatten_map_perm _ _ _
      (fun lv _ => levelStrippedEvents_perm (spawnCtxOf s w) (sortLevels w.levels) lv)
  · exact List.Perm.map _ (levelsAdds_perm (spawnCtxOf s w) (sortLevels w.levels))

/-- C9 witness: the concrete two-layer document, spawned twice from the
loaded state: the stripped second trace is a permutation of the stripped
first trace. -/
theorem spawn_respawn_stable_witness :
    (((spawnOut ((spawnOut c9State).1)).2).map stripFields).Perm
      (((spawnOut c9State).2).map stripFields) :=
  spawn_respawn_stable c9State c9Doc (synthWorld c9Doc) rfl (by decide) rfl (by decide)
